import Mathlib

/-!
Verification development for the pg_shardman partition copy engine
(src/copypart.c, with configuration globals from src/pg_shardman.c).

The copy engine drives tasks (move partition / create replica) through a
three-step copy state machine (cp_start_tablesync, cp_start_finalsync,
cp_finalize) followed by task-flavor reconfiguration (mp_rebuild_lr /
cr_rebuild_lr) and a final metadata update, all multiplexed by the
exec_tasks event loop.

The embedding below mirrors the C control flow.  Remote interactions
(libpq connections, query results, per-fragment remote_exec outcomes)
are nondeterministic inputs supplied by environment records, one per
invocation; an adversary picks an arbitrary list of environments for a
task's lifetime.  Every invocation returns the successor task state and
the list of observable events (scripts shipped to workers, single remote
statements, catalog queries, the local metadata-update SPI transaction,
and each assignment to the curstep field).
-/

namespace Shardman

/-- Decimal digit characters, as produced by printf %d for one digit. -/
def digitVal (c : Char) : Nat := c.toNat - 48

/-- Decimal rendering of a natural number as a list of characters; this is
the embedding of printf %d on the (non-negative) node ids. -/
def natChars (n : Nat) : List Char :=
  if _h : n < 10 then [Nat.digitChar n]
  else natChars (n / 10) ++ [Nat.digitChar (n % 10)]
termination_by n
decreasing_by exact Nat.div_lt_self (by omega) (by omega)

/-- Decimal rendering of a natural number as a string. -/
def natStr (n : Nat) : String := ⟨natChars n⟩

/-- Channel name get_data_lname (copypart.c:137): shardman_data_(part)_(pub)_(sub). -/
def get_data_lname (part_name : String) (pub_node sub_node : Nat) : String :=
  "shardman_data_" ++ part_name ++ "_" ++ natStr pub_node ++ "_" ++ natStr sub_node

/-- Copy channel name (copypart.c:347): shardman_copy_(part)_(src)_(dst). -/
def copy_lname (part_name : String) (src_node dst_node : Nat) : String :=
  "shardman_copy_" ++ part_name ++ "_" ++ natStr src_node ++ "_" ++ natStr dst_node

/-- Steps of the copy state machine (CopyPartStep in copypart.h). -/
inductive Step
  | startTablesync
  | startFinalsync
  | finalize
  | done
deriving DecidableEq, Repr

/-- Numeric position of a step in the chain, for monotonicity statements. -/
def Step.idx : Step → Nat
  | .startTablesync => 0
  | .startFinalsync => 1
  | .finalize => 2
  | .done => 3

/-- Task result (TASK_IN_PROGRESS / TASK_FAILED / TASK_SUCCESS). -/
inductive TaskRes
  | inProgress
  | success
  | failed
deriving DecidableEq, Repr

/-- Execution signal returned to the scheduler (TASK_DONE / TASK_WAKEMEUP /
TASK_EPOLL); unset models the uninitialized field before the first run. -/
inductive ExecRes
  | taskDone
  | wakeMeUp
  | taskEpoll
  | unset
deriving DecidableEq, Repr

/-- The two configured retry intervals (GUCs shardman_cmd_retry_naptime and
shardman_poll_interval, pg_shardman.c:65-66).  They are kept symbolic:
the claims are about which interval a code path uses, not its value. -/
inductive Delay
  | cmdRetryNaptime
  | pollInterval
deriving DecidableEq, Repr

/-- Wake time of a task: invalid ({0}, set at exec_cp entry), due now
(init_cp_state), or now plus one of the configured intervals
(configure_retry). -/
inductive WakeTm
  | invalid
  | now
  | afterDelay (d : Delay)
deriving DecidableEq, Repr

/-- Abstract SQL statements, one constructor per statement template that the
init functions (init_cp_state / init_mp_state / init_cr_state) print into
the task's scripts.  Arguments are the printf arguments of the template. -/
inductive Stmt
  | dropSubscription (name : String)
  | dropPublication (name : String)
  | createPublication (name : String) (table : String)
  | dropRepslot (name : String)
  | createRepslot (name : String)
  | dropTable (name : String)
  | createTable (name : String) (like : String)
  | createSubscription (name : String) (connstr : String) (pub : String) (slot : String)
  | readonlyTableOn (table : String)
  | readonlyTableOff (table : String)
  | partMovedPrev (part : String) (src dst : Nat)
  | partMovedDst (part : String) (src dst : Nat)
  | partMovedNext (part : String) (src dst : Nat)
  | ensureSyncStandby (name : String)
  | replicaCreatedDropCpSub (part : String) (src dst : Nat)
  | replicaCreatedCreateDataPub (part : String) (src dst : Nat)
  | replicaCreatedCreateDataSub (part : String) (src dst : Nat)
  | updOwnerWhereOwner (part : String) (toN fromN : Nat)
  | updNxtWhereNxt (part : String) (toN fromN : Nat)
  | updPrvWherePrv (part : String) (toN fromN : Nat)
  | insertPartition (part : String) (owner prv : Nat) (relation : String)
  | updNxtWhereOwner (part : String) (nxt owner : Nat)
deriving DecidableEq, Repr

/-- Read-only catalog queries issued over libpq. -/
inductive Query
  | receivedLsn (sub : String)
  | substate (sub : String)
  | currentWalLsn
deriving DecidableEq, Repr

/-- Identity of each script a task can ship to a worker via remote_exec. -/
inductive ScriptTag
  | dstDropSub
  | srcCreatePubRs
  | dstCreateTabSub
  | prevSql
  | dstSql
  | syncStandbyPrev
  | nextSql
  | syncStandbyDst
  | dropCpSub
  | createDataPub
  | createDataSub
  | syncStandbyCr
deriving DecidableEq, Repr

/-- Observable events of one task: a remote_exec call (with the statements
actually executed, a possibly proper front segment of the script on mid-
script failure), a catalog query, a single remotely executed statement, the
local metadata-update SPI transaction, and each assignment to curstep. -/
inductive Ev
  | script (tag : ScriptTag) (executed : List Stmt)
  | qry (q : Query)
  | stmtOne (s : Stmt)
  | meta (stmts : List Stmt)
  | stepSet (s : Step)
deriving DecidableEq, Repr

/-- Outcome of one remote_exec call: all fragments succeed, or the
(k+1)-st fragment fails after k fragments were executed. -/
inductive ROutcome
  | ok
  | failAt (k : Nat)
deriving DecidableEq, Repr

/-- Task kind (CopyPartTaskType). -/
inductive TaskKind
  | movePrimary
  | moveReplica
  | createReplica
deriving DecidableEq, Repr

/-- Static data of a task, as computed by the init functions, plus the
configuration globals the engine reads (shardman_sync_replicas,
shardman_my_id). -/
structure TaskParams where
  partName : String
  srcNode : Nat
  dstNode : Nat
  relation : String
  srcConnstr : String
  prevNode : Option Nat
  nextNode : Option Nat
  kind : TaskKind
  syncReplicas : Bool
  myId : Nat
deriving DecidableEq, Repr

/-- Subscription name of the well-known meta channel. -/
def metaSubName : String := "shardman_meta_sub"

/-- Copy channel name of a task (cps->logname, copypart.c:347). -/
def logname (p : TaskParams) : String := copy_lname p.partName p.srcNode p.dstNode

/-- Fragments of cps->dst_drop_sub_sql (copypart.c:349). -/
def dst_drop_sub_stmts (p : TaskParams) : List Stmt :=
  [.dropSubscription (logname p)]

/-- Fragments of cps->src_create_pub_and_rs_sql (copypart.c:355). -/
def src_create_pub_and_rs_stmts (p : TaskParams) : List Stmt :=
  [.dropPublication (logname p), .createPublication (logname p) p.partName,
   .dropRepslot (logname p), .createRepslot (logname p)]

/-- Fragments of cps->dst_create_tab_and_sub_sql (copypart.c:364). -/
def dst_create_tab_and_sub_stmts (p : TaskParams) : List Stmt :=
  [.dropTable p.partName, .createTable p.partName p.relation,
   .dropSubscription (logname p),
   .createSubscription (logname p) p.srcConnstr (logname p) (logname p)]

/-- Fragments of mps->prev_sql (copypart.c:227); the slot name uses
get_data_lname(part, shardman_my_id, dst) exactly as in the source. -/
def mp_prev_sql_stmts (p : TaskParams) : List Stmt :=
  [.partMovedPrev p.partName p.srcNode p.dstNode,
   .createRepslot (get_data_lname p.partName p.myId p.dstNode)]

/-- Fragments of mps->sync_standby_prev_sql (copypart.c:232). -/
def mp_sync_standby_prev_stmts (p : TaskParams) : List Stmt :=
  [.ensureSyncStandby (get_data_lname p.partName p.myId p.dstNode)]

/-- Fragments of mps->dst_sql (copypart.c:235, extended at 245 when a next
neighbor exists). -/
def mp_dst_sql_stmts (p : TaskParams) : List Stmt :=
  [.partMovedDst p.partName p.srcNode p.dstNode] ++
  (match p.nextNode with
   | some nxt => [.createRepslot (get_data_lname p.partName p.dstNode nxt)]
   | none => [])

/-- Fragments of mps->next_sql (copypart.c:242). -/
def mp_next_sql_stmts (p : TaskParams) : List Stmt :=
  [.partMovedNext p.partName p.srcNode p.dstNode]

/-- Fragments of mps->sync_standby_dst_sql (copypart.c:249). -/
def mp_sync_standby_dst_stmts (p : TaskParams) : List Stmt :=
  match p.nextNode with
  | some nxt => [.ensureSyncStandby (get_data_lname p.partName p.dstNode nxt)]
  | none => []

/-- Statements of mps->cp.update_metadata_sql (copypart.c:212). -/
def mp_update_metadata_stmts (p : TaskParams) : List Stmt :=
  [.updOwnerWhereOwner p.partName p.dstNode p.srcNode,
   .updNxtWhereNxt p.partName p.dstNode p.srcNode,
   .updPrvWherePrv p.partName p.dstNode p.srcNode]

/-- Statements of crs->cp.update_metadata_sql (copypart.c:277). -/
def cr_update_metadata_stmts (p : TaskParams) : List Stmt :=
  [.insertPartition p.partName p.dstNode p.srcNode p.relation,
   .updNxtWhereOwner p.partName p.dstNode p.srcNode]

/-- Fragments of crs->drop_cp_sub_sql (copypart.c:286). -/
def cr_drop_cp_sub_stmts (p : TaskParams) : List Stmt :=
  [.replicaCreatedDropCpSub p.partName p.srcNode p.dstNode]

/-- Fragments of crs->create_data_pub_sql (copypart.c:290). -/
def cr_create_data_pub_stmts (p : TaskParams) : List Stmt :=
  [.replicaCreatedCreateDataPub p.partName p.srcNode p.dstNode,
   .createRepslot (get_data_lname p.partName p.srcNode p.dstNode)]

/-- Fragments of crs->create_data_sub_sql (copypart.c:295). -/
def cr_create_data_sub_stmts (p : TaskParams) : List Stmt :=
  [.replicaCreatedCreateDataSub p.partName p.srcNode p.dstNode]

/-- Fragments of crs->sync_standby_sql (copypart.c:298): the synchronous
standby enrollment and the readonly_table_off release are bundled into one
script. -/
def cr_sync_standby_stmts (p : TaskParams) : List Stmt :=
  [.ensureSyncStandby (get_data_lname p.partName p.srcNode p.dstNode),
   .readonlyTableOff p.partName]

/-- The script a tag denotes, as a list of its semicolon-separated
statement fragments, exactly as printed by the init functions. -/
def scriptStmts (t : ScriptTag) (p : TaskParams) : List Stmt :=
  match t with
  | .dstDropSub => dst_drop_sub_stmts p
  | .srcCreatePubRs => src_create_pub_and_rs_stmts p
  | .dstCreateTabSub => dst_create_tab_and_sub_stmts p
  | .prevSql => mp_prev_sql_stmts p
  | .dstSql => mp_dst_sql_stmts p
  | .syncStandbyPrev => mp_sync_standby_prev_stmts p
  | .nextSql => mp_next_sql_stmts p
  | .syncStandbyDst => mp_sync_standby_dst_stmts p
  | .dropCpSub => cr_drop_cp_sub_stmts p
  | .createDataPub => cr_create_data_pub_stmts p
  | .createDataSub => cr_create_data_sub_stmts p
  | .syncStandbyCr => cr_sync_standby_stmts p

/-- Per-relation subscription state char SUBREL_STATE_READY. -/
def SUBREL_STATE_READY : Char := 'r'

/-- Mutable per-task state of the copy state machine (the claim-relevant
fields of CopyPartState). -/
structure CpTask where
  curstep : Step
  res : TaskRes
  execRes : ExecRes
  waketm : WakeTm
  syncPoint : Nat
deriving DecidableEq, Repr

/-- configure_retry (copypart.c:1127): set the wake time to now plus the
given interval and signal TASK_WAKEMEUP. -/
def configure_retry (d : Delay) (st : CpTask) : CpTask :=
  { st with waketm := .afterDelay d, execRes := .wakeMeUp }

/-- A row of the shardman.partitions catalog. -/
structure PartRow where
  part_name : String
  owner : Nat
  prv : Option Nat
  nxt : Option Nat
  relation : String
deriving DecidableEq, Repr

/-- The existence probe of init_cp_state (copypart.c:322): does the catalog
already record the partition on the destination node? -/
def shard_exists (catalog : List PartRow) (part : String) (dst : Nat) : Bool :=
  catalog.any (fun r => r.part_name = part && r.owner = dst)

/-- State of a freshly initialized, non-failed task: init_cp_state sets
waketm to now (ready to be processed right now), curstep to
COPYPART_START_TABLESYNC and res to TASK_IN_PROGRESS (copypart.c:337,390). -/
def freshCpTask : CpTask :=
  { curstep := .startTablesync, res := .inProgress, execRes := .unset,
    waketm := .now, syncPoint := 0 }

/-- init_cp_state (copypart.c:311): if the catalog already has a row for
(part_name, dst), the task is born TASK_FAILED and nothing else is filled
in (the remaining fields keep their pre-initialization values, which are
never read because failed tasks are never executed); otherwise the common
fields are set up and the task is in progress. -/
def init_cp_state (catalog : List PartRow) (p : TaskParams) : CpTask :=
  if shard_exists catalog p.partName p.dstNode then
    { curstep := .startTablesync, res := .failed, execRes := .unset,
      waketm := .invalid, syncPoint := 0 }
  else freshCpTask

/-- Environment of one cp_start_tablesync invocation: outcome of the
connection ensure on src and dst, of the two meta-subscription freshness
probes, and of the three remote_exec scripts. -/
structure TablesyncEnv where
  ensureOk : Bool
  metaSrcOk : Bool
  metaDstOk : Bool
  dropSub : ROutcome
  createPubRs : ROutcome
  createTabSub : ROutcome
deriving DecidableEq, Repr

/-- Environment of one cp_start_finalsync invocation: outcome of the
connection ensure, of the substate query on dst (none = libpq failure,
otherwise the returned rows as a list of substate chars), of the read-only
statement on src, and of the pg_current_wal_lsn query (none = failure). -/
structure FinalsyncEnv where
  ensureOk : Bool
  substate : Option (List Char)
  readonlyOk : Bool
  currentLsn : Option Nat
deriving DecidableEq, Repr

/-- Environment of one cp_finalize invocation: outcome of the connection
ensure and the received_lsn probe on dst (none = libpq failure, zero or
many rows, or NULL; some l = the received lsn). -/
structure FinalizeEnv where
  ensureOk : Bool
  received : Option Nat
deriving DecidableEq, Repr

/-- Environment of the three copy steps for one exec_cp invocation. -/
structure CpEnv where
  ts : TablesyncEnv
  fs : FinalsyncEnv
  fz : FinalizeEnv
deriving DecidableEq, Repr

/-- Environment of one mp_rebuild_lr invocation. -/
structure RebuildEnv where
  prevEnsure : Bool
  prevExec : ROutcome
  dstEnsure : Bool
  dstExec : ROutcome
  syncPrevExec : ROutcome
  nextEnsure : Bool
  nextExec : ROutcome
  syncDstExec : ROutcome
deriving DecidableEq, Repr

/-- Environment of one cr_rebuild_lr invocation. -/
structure CrRebuildEnv where
  ensureOk : Bool
  dropCpSub : ROutcome
  createDataPub : ROutcome
  createDataSub : ROutcome
  syncStandby : ROutcome
deriving DecidableEq, Repr

/-- Environment of one whole exec_task invocation. -/
structure Env where
  cp : CpEnv
  mpRb : RebuildEnv
  crRb : CrRebuildEnv
deriving DecidableEq, Repr

/-- One remote_exec call (copypart.c:659) at script granularity: on success
all fragments were executed; on failure the first k fragments were executed,
the connection is reset and configure_retry(cmd_retry_naptime) is invoked
(the retry configuration happens inside remote_exec itself). -/
def remoteExecScript (tag : ScriptTag) (p : TaskParams) (o : ROutcome)
    (st : CpTask) : Bool × CpTask × List Ev :=
  match o with
  | .ok => (true, st, [.script tag (scriptStmts tag p)])
  | .failAt k => (false, configure_retry .cmdRetryNaptime st,
      [.script tag ((scriptStmts tag p).take k)])

/-- One ensure_pqconn / ensure_pqconn_cp call: on failure the task is
configured to retry after cmd_retry_naptime (copypart.c:1111). -/
def ensurePq (ok : Bool) (st : CpTask) : Bool × CpTask × List Ev :=
  if ok then (true, st, [])
  else (false, configure_retry .cmdRetryNaptime st, [])

/-- Sequencing with early exit: mirrors the C pattern of returning -1 as
soon as a sub-action fails, accumulating the events of the sub-actions. -/
def seqR (acc : Bool × CpTask × List Ev) (f : CpTask → Bool × CpTask × List Ev) :
    Bool × CpTask × List Ev :=
  match acc with
  | (false, st, ev) => (false, st, ev)
  | (true, st, ev) =>
    match f st with
    | (ok, st2, ev2) => (ok, st2, ev ++ ev2)

/-- cp_start_tablesync (copypart.c:852): ensure both connections, check the
meta subscription freshness on src and dst (failure: retry after
cmd_retry_naptime), then run the three scripts; on success advance curstep
to COPYPART_START_FINALSYNC and return 0 (true). -/
def cp_start_tablesync (p : TaskParams) (e : TablesyncEnv) (st : CpTask) :
    Bool × CpTask × List Ev :=
  seqR (seqR (seqR (seqR (seqR (seqR (ensurePq e.ensureOk st)
    (fun s =>
      if e.metaSrcOk then (true, s, [.qry (.receivedLsn metaSubName)])
      else (false, configure_retry .cmdRetryNaptime s,
        [.qry (.receivedLsn metaSubName)])))
    (fun s =>
      if e.metaDstOk then (true, s, [.qry (.receivedLsn metaSubName)])
      else (false, configure_retry .cmdRetryNaptime s,
        [.qry (.receivedLsn metaSubName)])))
    (remoteExecScript .dstDropSub p e.dropSub))
    (remoteExecScript .srcCreatePubRs p e.createPubRs))
    (remoteExecScript .dstCreateTabSub p e.createTabSub))
    (fun s => (true, { s with curstep := .startFinalsync },
      [.stepSet .startFinalsync]))

/-- cp_start_finalsync (copypart.c:973): ensure connections; query the
substate on dst (libpq failure or a row count different from 1: retry after
cmd_retry_naptime; substate not SUBREL_STATE_READY: retry after
poll_interval); make src read only; read pg_current_wal_lsn on src into
sync_point; advance curstep to COPYPART_FINALIZE. -/
def cp_start_finalsync (p : TaskParams) (e : FinalsyncEnv) (st : CpTask) :
    Bool × CpTask × List Ev :=
  seqR (ensurePq e.ensureOk st) (fun s =>
    match e.substate with
    | none => (false, configure_retry .cmdRetryNaptime s,
        [.qry (.substate (logname p))])
    | some rows =>
      if rows.length ≠ 1 then
        (false, configure_retry .cmdRetryNaptime s, [.qry (.substate (logname p))])
      else if rows.headD ' ' ≠ SUBREL_STATE_READY then
        (false, configure_retry .pollInterval s, [.qry (.substate (logname p))])
      else if !e.readonlyOk then
        (false, configure_retry .cmdRetryNaptime s, [.qry (.substate (logname p))])
      else
        match e.currentLsn with
        | none => (false, configure_retry .cmdRetryNaptime s,
            [.qry (.substate (logname p)), .stmtOne (.readonlyTableOn p.partName),
             .qry .currentWalLsn])
        | some lsn =>
          (true, { s with curstep := .finalize, syncPoint := lsn },
           [.qry (.substate (logname p)), .stmtOne (.readonlyTableOn p.partName),
            .qry .currentWalLsn, .stepSet .finalize]))

/-- cp_finalize (copypart.c:1050): ensure the dst connection (failure: retry
after cmd_retry_naptime inside ensure_pqconn); probe received_lsn of the
copy channel and compare with sync_point (probe failure or lag: retry after
poll_interval); on success advance curstep to COPYPART_DONE. -/
def cp_finalize (p : TaskParams) (e : FinalizeEnv) (st : CpTask) :
    Bool × CpTask × List Ev :=
  seqR (ensurePq e.ensureOk st) (fun s =>
    match e.received with
    | none => (false, configure_retry .pollInterval s,
        [.qry (.receivedLsn (logname p))])
    | some l =>
      if l < s.syncPoint then
        (false, configure_retry .pollInterval s, [.qry (.receivedLsn (logname p))])
      else
        (true, { s with curstep := .done },
         [.qry (.receivedLsn (logname p)), .stepSet .done]))

/-- One phase of exec_cp: if the previous phases did not fail and the
current step equals the phase's step, run the phase body. -/
def phaseRun (cond : Step) (f : CpTask → Bool × CpTask × List Ev)
    (acc : Bool × CpTask × List Ev) : Bool × CpTask × List Ev :=
  match acc with
  | (false, st, ev) => (false, st, ev)
  | (true, st, ev) =>
    if st.curstep = cond then
      match f st with
      | (ok, st2, ev2) => (ok, st2, ev ++ ev2)
    else (true, st, ev)

/-- exec_cp (copypart.c:827): invalidate waketm, then run the three phases
in sequence; each phase executes only when curstep equals its step, and a
failing phase (-1) returns immediately, so a successful step falls through
into the next phase within the same invocation. -/
def exec_cp (p : TaskParams) (e : CpEnv) (st0 : CpTask) : CpTask × List Ev :=
  let r := phaseRun .finalize (cp_finalize p e.fz)
    (phaseRun .startFinalsync (cp_start_finalsync p e.fs)
      (phaseRun .startTablesync (cp_start_tablesync p e.ts)
        (true, { st0 with waketm := .invalid }, ([] : List Ev))))
  (r.2.1, r.2.2)

/-- mp_rebuild_lr (copypart.c:691): reconfigure the logical replication
channels around a moved partition, in source order: prev script (if a
previous neighbor exists), dst script, sync-standby on prev (if sync
replicas are on and a previous neighbor exists), next script (if a next
neighbor exists), sync-standby on dst (if sync replicas are on and a next
neighbor exists); any failure returns -1 (false) immediately. -/
def mp_rebuild_lr (p : TaskParams) (e : RebuildEnv) (st : CpTask) :
    Bool × CpTask × List Ev :=
  let a0 : Bool × CpTask × List Ev := (true, st, [])
  let a1 :=
    if p.prevNode.isSome then
      seqR (seqR a0 (ensurePq e.prevEnsure))
        (remoteExecScript .prevSql p e.prevExec)
    else a0
  let a2 := seqR (seqR a1 (ensurePq e.dstEnsure))
    (remoteExecScript .dstSql p e.dstExec)
  let a3 :=
    if p.prevNode.isSome then
      seqR a2 (fun s =>
        if p.syncReplicas then
          remoteExecScript .syncStandbyPrev p e.syncPrevExec s
        else (true, s, []))
    else a2
  let a4 :=
    if p.nextNode.isSome then
      seqR (seqR (seqR a3 (ensurePq e.nextEnsure))
        (remoteExecScript .nextSql p e.nextExec))
        (fun s =>
          if p.syncReplicas then
            remoteExecScript .syncStandbyDst p e.syncDstExec s
          else (true, s, []))
    else a3
  a4

/-- cr_rebuild_lr (copypart.c:770): drop the copy subscription, create the
data publication and slot, create the data subscription, and, only when
sync replicas are on, run the sync-standby script (which also releases the
source partition from read-only); any failure returns -1 immediately. -/
def cr_rebuild_lr (p : TaskParams) (e : CrRebuildEnv) (st : CpTask) :
    Bool × CpTask × List Ev :=
  seqR (seqR (seqR (seqR (ensurePq e.ensureOk st)
    (remoteExecScript .dropCpSub p e.dropCpSub))
    (remoteExecScript .createDataPub p e.createDataPub))
    (remoteExecScript .createDataSub p e.createDataSub))
    (fun s =>
      if p.syncReplicas then
        remoteExecScript .syncStandbyCr p e.syncStandby s
      else (true, s, []))

/-- exec_move_part (copypart.c:635): run exec_cp; if curstep has not reached
COPYPART_DONE, return; otherwise, when a previous or next neighbor exists,
run mp_rebuild_lr (returning on failure); finally execute the metadata
update via SPI, set res to TASK_SUCCESS and exec_res to TASK_DONE. -/
def exec_move_part (p : TaskParams) (e : Env) (st0 : CpTask) : CpTask × List Ev :=
  let r := exec_cp p e.cp st0
  if r.1.curstep ≠ .done then r
  else if p.nextNode.isSome || p.prevNode.isSome then
    match mp_rebuild_lr p e.mpRb r.1 with
    | (false, st2, ev2) => (st2, r.2 ++ ev2)
    | (true, st2, ev2) =>
      ({ st2 with res := .success, execRes := .taskDone },
       r.2 ++ ev2 ++ [.meta (mp_update_metadata_stmts p)])
  else
    ({ r.1 with res := .success, execRes := .taskDone },
     r.2 ++ [.meta (mp_update_metadata_stmts p)])

/-- exec_create_replica (copypart.c:743): run exec_cp; if curstep has not
reached COPYPART_DONE, return; run cr_rebuild_lr (returning on failure);
finally execute the metadata update via SPI, set res to TASK_SUCCESS and
exec_res to TASK_DONE. -/
def exec_create_replica (p : TaskParams) (e : Env) (st0 : CpTask) : CpTask × List Ev :=
  let r := exec_cp p e.cp st0
  if r.1.curstep ≠ .done then r
  else
    match cr_rebuild_lr p e.crRb r.1 with
    | (false, st2, ev2) => (st2, r.2 ++ ev2)
    | (true, st2, ev2) =>
      ({ st2 with res := .success, execRes := .taskDone },
       r.2 ++ ev2 ++ [.meta (cr_update_metadata_stmts p)])

/-- exec_task (copypart.c:602): dispatch one task iteration by task type. -/
def exec_task (p : TaskParams) (e : Env) (st : CpTask) : CpTask × List Ev :=
  match p.kind with
  | .createReplica => exec_create_replica p e st
  | .movePrimary => exec_move_part p e st
  | .moveReplica => exec_move_part p e st

/-- A task as seen by the exec_tasks scheduler: its state plus whether it is
still on the scheduler's collections (timeout list).  Tasks signalling
TASK_DONE are reaped; tasks signalling TASK_EPOLL are moved to the epoll
set, whose events the loop never processes, so they are likewise never
executed again (copypart.c:471-503 iterates only timeout_states). -/
structure TaskLife where
  st : CpTask
  active : Bool
deriving DecidableEq, Repr

/-- Initial scheduler registration (copypart.c:442): every task whose result
is not TASK_FAILED is put on the timeout list. -/
def initLife (st : CpTask) : TaskLife :=
  { st := st, active := st.res ≠ .failed }

/-- One scheduler iteration as it affects a single task: if the task is on
the timeout list it is executed (the adversary schedules it whenever due),
and it stays there only when it signals TASK_WAKEMEUP. -/
def lifeStep (p : TaskParams) (e : Env) (l : TaskLife) : TaskLife × List Ev :=
  if l.active then
    let r := exec_task p e l.st
    ({ st := r.1, active := r.1.execRes = .wakeMeUp }, r.2)
  else (l, [])

/-- A whole scheduler run for one task, driven by an adversarial list of
per-invocation environments; returns the final task and the concatenated
event trace. -/
def runLife (p : TaskParams) (es : List Env) (l : TaskLife) : TaskLife × List Ev :=
  match es with
  | [] => (l, [])
  | e :: rest =>
    let r := lifeStep p e l
    let r2 := runLife p rest r.1
    (r2.1, r.2 ++ r2.2)

/-- Values assigned to curstep, in order, during a trace. -/
def stepValues (tr : List Ev) : List Step :=
  tr.filterMap (fun ev => match ev with | .stepSet s => some s | _ => none)

/-- Script tags attempted, in order, during a trace. -/
def scriptTags (tr : List Ev) : List ScriptTag :=
  tr.filterMap (fun ev => match ev with | .script t _ => some t | _ => none)

/-- All statements executed remotely or via SPI during a trace. -/
def stmtsExecuted (tr : List Ev) : List Stmt :=
  tr.flatMap (fun ev => match ev with
    | .script _ ss => ss
    | .stmtOne s => [s]
    | .meta ss => ss
    | _ => [])

/-- Number of metadata-update transactions in a trace. -/
def metaCount (tr : List Ev) : Nat :=
  tr.countP (fun ev => match ev with | .meta _ => true | _ => false)

/-- The steps already traversed, including the current one: the chain
from StartTablesync up to the given step. -/
def upTo : Step → List Step
  | .startTablesync => [.startTablesync]
  | .startFinalsync => [.startTablesync, .startFinalsync]
  | .finalize => [.startTablesync, .startFinalsync, .finalize]
  | .done => [.startTablesync, .startFinalsync, .finalize, .done]

/-- The first list is an initial segment of the second. -/
def frontOf {α : Type} (l1 l2 : List α) : Prop := ∃ t, l1 ++ t = l2

/-- Does a trace event belong to the post-copy reconfiguration phase
(mp_rebuild_lr / cr_rebuild_lr scripts or the metadata update)? -/
def Ev.isReconfig : Ev → Bool
  | .script t _ =>
    match t with
    | .prevSql | .dstSql | .syncStandbyPrev | .nextSql | .syncStandbyDst
    | .dropCpSub | .createDataPub | .createDataSub | .syncStandbyCr => true
    | _ => false
  | .meta _ => true
  | _ => false

/-- The guarded, ordered list of reconfiguration scripts of mp_rebuild_lr:
prev script when a previous neighbor exists, dst script, sync-standby on
prev when sync replicas are on and a previous neighbor exists, next script
when a next neighbor exists, sync-standby on dst when sync replicas are on
and a next neighbor exists. -/
def mpGuardedTags (p : TaskParams) : List ScriptTag :=
  (if p.prevNode.isSome then [ScriptTag.prevSql] else []) ++
  [ScriptTag.dstSql] ++
  (if p.syncReplicas && p.prevNode.isSome then [ScriptTag.syncStandbyPrev] else []) ++
  (if p.nextNode.isSome then [ScriptTag.nextSql] else []) ++
  (if p.syncReplicas && p.nextNode.isSome then [ScriptTag.syncStandbyDst] else [])

/-- Did a remote_exec call succeed? -/
def execOk : ROutcome → Bool
  | .ok => true
  | .failAt _ => false

/-- Is the rebuild sub-step tagged t entered under environment e, that is,
does its script start executing once the walk reaches it?  A sub-step
preceded by its own ensure_pqconn call (the prev, dst and next scripts)
is entered only when that call succeeds; the sync-standby sub-steps reuse
the already established connection and are always entered once reached. -/
def mpEntered (e : RebuildEnv) : ScriptTag → Bool
  | .prevSql => e.prevEnsure
  | .dstSql => e.dstEnsure
  | .nextSql => e.nextEnsure
  | _ => true

/-- Does the rebuild sub-step tagged t fully succeed under environment e
(its ensure_pqconn call, when it has one, and its remote execution)? -/
def mpSucceeds (e : RebuildEnv) : ScriptTag → Bool
  | .prevSql => e.prevEnsure && execOk e.prevExec
  | .dstSql => e.dstEnsure && execOk e.dstExec
  | .syncStandbyPrev => execOk e.syncPrevExec
  | .nextSql => e.nextEnsure && execOk e.nextExec
  | .syncStandbyDst => execOk e.syncDstExec
  | _ => false

/-- Early-exit walk of a guarded sub-step list, stated from the spec
sentence that no later sub-step runs once an earlier one fails: every
fully succeeding sub-step runs its script and the walk continues; at the
first sub-step that does not fully succeed, its script runs exactly when
the sub-step was entered, and no later sub-step runs at all. -/
def mpAttempt (e : RebuildEnv) : List ScriptTag → List ScriptTag
  | [] => []
  | t :: rest =>
    if mpSucceeds e t then t :: mpAttempt e rest
    else if mpEntered e t then [t] else []

/-- Does a statement list contain a readonly_table_off call? -/
def hasReadonlyOff (l : List Stmt) : Bool :=
  l.any (fun s => match s with | .readonlyTableOff _ => true | _ => false)

/-- Read-only status of the source partition implied by a statement list:
readonly_table_on sets it, readonly_table_off clears it. -/
def readonlyState (l : List Stmt) : Bool :=
  l.foldl (fun b s => match s with
    | .readonlyTableOn _ => true
    | .readonlyTableOff _ => false
    | _ => b) false

/-- Numeric value of a digit list (inverse of natChars, used to prove that
decimal rendering is injective). -/
def valOfDigits (l : List Char) : Nat :=
  l.foldl (fun a c => 10 * a + digitVal c) 0

/-- Splitting a character buffer at its first semicolon, as strchr does in
remote_exec (copypart.c:664): the fragment before it and the rest after it. -/
def splitAtSemi : List Char → Option (List Char × List Char)
  | [] => none
  | c :: rest =>
    if c = ';' then some ([], rest)
    else
      match splitAtSemi rest with
      | none => none
      | some r => some (c :: r.1, r.2)

/-- Full decomposition of a buffer into its semicolon-terminated fragments
and the trailing characters after the last semicolon. -/
def splitSemiAll : List Char → List (List Char) × List Char
  | [] => ([], [])
  | c :: rest =>
    let r := splitSemiAll rest
    if c = ';' then ([] :: r.1, r.2)
    else
      match r.1 with
      | [] => ([], c :: r.2)
      | f :: fs => ((c :: f) :: fs, r.2)

/-- The semicolon-terminated fragments of a buffer, in order, without the
trailing characters after the last semicolon. -/
def completeFrags (buf : List Char) : List (List Char) := (splitSemiAll buf).1

/-- Character-level model of the remote_exec loop (copypart.c:659), fueled
by the buffer length (each iteration consumes at least the semicolon).  The
oracle gives the outcome of the i-th PQexec.  Returns the fragments sent,
the buffer contents at return (each iteration temporarily overwrites the
semicolon with NUL and restores it on both the success and the failure
path, modeled by reassembling frag ++ semicolon ++ rest), and whether all
fragments succeeded. -/
def remoteExecF (o : Nat → Bool) : Nat → Nat → List Char →
    List (List Char) × List Char × Bool
  | _, 0, buf => ([], buf, true)
  | i, fuel + 1, buf =>
    match splitAtSemi buf with
    | none => ([], buf, true)
    | some fr =>
      if o i then
        let r := remoteExecF o (i + 1) fuel fr.2
        (fr.1 :: r.1, fr.1 ++ ';' :: r.2.1, r.2.2)
      else ([fr.1], fr.1 ++ ';' :: fr.2, false)

/-- remote_exec at character level: run the loop with enough fuel. -/
def remote_exec (o : Nat → Bool) (stmts : List Char) :
    List (List Char) × List Char × Bool :=
  remoteExecF o 0 stmts.length stmts

/-- An environment in which every remote interaction succeeds: connections
are up, the meta subscription is fresh, the substate is SUBREL_STATE_READY,
lsn queries answer, the destination has received lsn 7 of a sync point 5,
and every script runs to completion. -/
def allOkEnv : Env :=
  { cp := { ts := { ensureOk := true, metaSrcOk := true, metaDstOk := true,
                    dropSub := .ok, createPubRs := .ok, createTabSub := .ok },
            fs := { ensureOk := true, substate := some ['r'], readonlyOk := true,
                    currentLsn := some 5 },
            fz := { ensureOk := true, received := some 7 } },
    mpRb := { prevEnsure := true, prevExec := .ok, dstEnsure := true, dstExec := .ok,
              syncPrevExec := .ok, nextEnsure := true, nextExec := .ok,
              syncDstExec := .ok },
    crRb := { ensureOk := true, dropCpSub := .ok, createDataPub := .ok,
              createDataSub := .ok, syncStandby := .ok } }

/-- A concrete move-primary task with no neighbors: partition p moves from
node 1 to node 2 (literal scenario 1 of the specification). -/
def mvTask : TaskParams :=
  { partName := "p", srcNode := 1, dstNode := 2, relation := "r", srcConnstr := "c",
    prevNode := none, nextNode := none, kind := .movePrimary, syncReplicas := false,
    myId := 0 }

/-- A concrete move-replica task with both neighbors and sync replicas on. -/
def mvTaskFull : TaskParams :=
  { partName := "p", srcNode := 3, dstNode := 4, relation := "r", srcConnstr := "c",
    prevNode := some 1, nextNode := some 5, kind := .moveReplica,
    syncReplicas := true, myId := 0 }

/-- A concrete create-replica task with sync replicas off. -/
def crTask : TaskParams :=
  { partName := "p", srcNode := 1, dstNode := 2, relation := "r", srcConnstr := "c",
    prevNode := none, nextNode := none, kind := .createReplica,
    syncReplicas := false, myId := 0 }

/-- An environment whose substate query at StartFinalsync returns zero rows
while everything else succeeds. -/
def zeroRowsEnv : Env :=
  { allOkEnv with
    cp := { allOkEnv.cp with
            fs := { ensureOk := true, substate := some [], readonlyOk := true,
                    currentLsn := some 5 } } }

/-- A task state sitting in step StartFinalsync. -/
def fsTask : CpTask := { freshCpTask with curstep := .startFinalsync }

/-- A task state whose copy machine has reached Done. -/
def doneTask : CpTask := { freshCpTask with curstep := .done }

/-- A rebuild environment whose destination sub-step fails after its first
fragment while every other sub-step would succeed. -/
def failDstEnv : RebuildEnv :=
  { prevEnsure := true, prevExec := .ok, dstEnsure := true, dstExec := .failAt 1,
    syncPrevExec := .ok, nextEnsure := true, nextExec := .ok, syncDstExec := .ok }


/-- Spec of an intermediate result of a rebuild chain relative to the state
the chain started from: on success the state is unchanged, on failure it is
the start state with a cmd_retry_naptime retry configured; no curstep
assignment and no metadata update happen, and every event belongs to the
reconfiguration phase. -/
def GoodAccW (st0 : CpTask) (a : Bool × CpTask × List Ev) : Prop :=
  (a.1 = true → a.2.1 = st0) ∧
  (a.1 = false → a.2.1 = configure_retry .cmdRetryNaptime st0) ∧
  stepValues a.2.2 = [] ∧ metaCount a.2.2 = 0 ∧
  (∀ x ∈ a.2.2, Ev.isReconfig x = true)

/-- GoodAccW plus: no readonly_table_off statement was executed. -/
def GoodAcc (st0 : CpTask) (a : Bool × CpTask × List Ev) : Prop :=
  GoodAccW st0 a ∧ hasReadonlyOff (stmtsExecuted a.2.2) = false

/-- Spec of the script tags attempted by an intermediate rebuild result:
always an initial segment of the given list, the whole list on success. -/
def AccTags (L : List ScriptTag) (a : Bool × CpTask × List Ev) : Prop :=
  frontOf (scriptTags a.2.2) L ∧ (a.1 = true → scriptTags a.2.2 = L)

/-- Exact characterization of an intermediate rebuild result over the
guarded sub-step list L: its attempted script tags are exactly the
early-exit walk of L, and it succeeds precisely when every sub-step of L
fully succeeds. -/
def AccChar (e : RebuildEnv) (L : List ScriptTag) (a : Bool × CpTask × List Ev) : Prop :=
  scriptTags a.2.2 = mpAttempt e L ∧ (a.1 = true ↔ L.all (mpSucceeds e) = true)

/-- Conclusion bundle about one exec_cp invocation from state st: the steps
traversed extend the chain exactly by the curstep assignments in the trace;
res is untouched; no metadata update; a result short of Done was produced
by a configure_retry (signal TASK_WAKEMEUP); a finalize assignment is
always preceded by the read-only statement; and no readonly_table_off is
ever issued by the copy steps. -/
def CpSpec (p : TaskParams) (st : CpTask) (r : CpTask × List Ev) : Prop :=
  upTo r.1.curstep = upTo st.curstep ++ stepValues r.2 ∧
  r.1.res = st.res ∧
  metaCount r.2 = 0 ∧
  (r.1.curstep ≠ Step.done → r.1.execRes = ExecRes.wakeMeUp) ∧
  (Ev.stepSet Step.finalize ∈ r.2 → Ev.stmtOne (Stmt.readonlyTableOn p.partName) ∈ r.2) ∧
  hasReadonlyOff (stmtsExecuted r.2) = false

/-- Conclusion bundle about one whole exec_task invocation from state st. -/
def TaskSpec (p : TaskParams) (st : CpTask) (r : CpTask × List Ev) : Prop :=
  upTo r.1.curstep = upTo st.curstep ++ stepValues r.2 ∧
  metaCount r.2 ≤ 1 ∧
  (1 ≤ metaCount r.2 →
    r.1.res = TaskRes.success ∧ r.1.execRes = ExecRes.taskDone ∧
    r.1.curstep = Step.done) ∧
  (metaCount r.2 = 0 → r.1.res = st.res ∧ r.1.execRes = ExecRes.wakeMeUp) ∧
  (p.syncReplicas = false → hasReadonlyOff (stmtsExecuted r.2) = false) ∧
  (Ev.stepSet Step.finalize ∈ r.2 → Ev.stmtOne (Stmt.readonlyTableOn p.partName) ∈ r.2)

/-! Helper lemmas about traces. -/

@[simp] theorem stepValues_nil : stepValues [] = [] := rfl

@[simp] theorem stepValues_cons_script (t : ScriptTag) (l : List Stmt) (tr : List Ev) :
    stepValues (Ev.script t l :: tr) = stepValues tr := rfl

@[simp] theorem stepValues_cons_qry (q : Query) (tr : List Ev) :
    stepValues (Ev.qry q :: tr) = stepValues tr := rfl

@[simp] theorem stepValues_cons_stmtOne (s : Stmt) (tr : List Ev) :
    stepValues (Ev.stmtOne s :: tr) = stepValues tr := rfl

@[simp] theorem stepValues_cons_meta (l : List Stmt) (tr : List Ev) :
    stepValues (Ev.meta l :: tr) = stepValues tr := rfl

@[simp] theorem stepValues_cons_stepSet (s : Step) (tr : List Ev) :
    stepValues (Ev.stepSet s :: tr) = s :: stepValues tr := rfl

@[simp] theorem stepValues_append (a b : List Ev) :
    stepValues (a ++ b) = stepValues a ++ stepValues b := by
  simp [stepValues]

@[simp] theorem scriptTags_nil : scriptTags [] = [] := rfl

@[simp] theorem scriptTags_cons_script (t : ScriptTag) (l : List Stmt) (tr : List Ev) :
    scriptTags (Ev.script t l :: tr) = t :: scriptTags tr := rfl

@[simp] theorem scriptTags_cons_qry (q : Query) (tr : List Ev) :
    scriptTags (Ev.qry q :: tr) = scriptTags tr := rfl

@[simp] theorem scriptTags_cons_stmtOne (s : Stmt) (tr : List Ev) :
    scriptTags (Ev.stmtOne s :: tr) = scriptTags tr := rfl

@[simp] theorem scriptTags_cons_meta (l : List Stmt) (tr : List Ev) :
    scriptTags (Ev.meta l :: tr) = scriptTags tr := rfl

@[simp] theorem scriptTags_cons_stepSet (s : Step) (tr : List Ev) :
    scriptTags (Ev.stepSet s :: tr) = scriptTags tr := rfl

@[simp] theorem scriptTags_append (a b : List Ev) :
    scriptTags (a ++ b) = scriptTags a ++ scriptTags b := by
  simp [scriptTags]

@[simp] theorem metaCount_nil : metaCount [] = 0 := rfl

@[simp] theorem metaCount_cons_script (t : ScriptTag) (l : List Stmt) (tr : List Ev) :
    metaCount (Ev.script t l :: tr) = metaCount tr := by
  simp [metaCount, List.countP_cons]

@[simp] theorem metaCount_cons_qry (q : Query) (tr : List Ev) :
    metaCount (Ev.qry q :: tr) = metaCount tr := by
  simp [metaCount, List.countP_cons]

@[simp] theorem metaCount_cons_stmtOne (s : Stmt) (tr : List Ev) :
    metaCount (Ev.stmtOne s :: tr) = metaCount tr := by
  simp [metaCount, List.countP_cons]

@[simp] theorem metaCount_cons_meta (l : List Stmt) (tr : List Ev) :
    metaCount (Ev.meta l :: tr) = metaCount tr + 1 := by
  simp [metaCount, List.countP_cons]

@[simp] theorem metaCount_cons_stepSet (s : Step) (tr : List Ev) :
    metaCount (Ev.stepSet s :: tr) = metaCount tr := by
  simp [metaCount, List.countP_cons]

@[simp] theorem metaCount_append (a b : List Ev) :
    metaCount (a ++ b) = metaCount a + metaCount b := by
  simp [metaCount, List.countP_append]

@[simp] theorem stmtsExecuted_nil : stmtsExecuted [] = [] := rfl

@[simp] theorem stmtsExecuted_cons_script (t : ScriptTag) (l : List Stmt) (tr : List Ev) :
    stmtsExecuted (Ev.script t l :: tr) = l ++ stmtsExecuted tr := rfl

@[simp] theorem stmtsExecuted_cons_qry (q : Query) (tr : List Ev) :
    stmtsExecuted (Ev.qry q :: tr) = stmtsExecuted tr := rfl

@[simp] theorem stmtsExecuted_cons_stmtOne (s : Stmt) (tr : List Ev) :
    stmtsExecuted (Ev.stmtOne s :: tr) = s :: stmtsExecuted tr := rfl

@[simp] theorem stmtsExecuted_cons_meta (l : List Stmt) (tr : List Ev) :
    stmtsExecuted (Ev.meta l :: tr) = l ++ stmtsExecuted tr := rfl

@[simp] theorem stmtsExecuted_cons_stepSet (s : Step) (tr : List Ev) :
    stmtsExecuted (Ev.stepSet s :: tr) = stmtsExecuted tr := rfl

@[simp] theorem stmtsExecuted_append (a b : List Ev) :
    stmtsExecuted (a ++ b) = stmtsExecuted a ++ stmtsExecuted b := by
  simp [stmtsExecuted]

@[simp] theorem hasReadonlyOff_nil : hasReadonlyOff [] = false := rfl

@[simp] theorem hasReadonlyOff_append (a b : List Stmt) :
    hasReadonlyOff (a ++ b) = (hasReadonlyOff a || hasReadonlyOff b) := by
  simp [hasReadonlyOff]

theorem hasReadonlyOff_take (k : Nat) (l : List Stmt)
    (h : hasReadonlyOff l = false) : hasReadonlyOff (l.take k) = false := by
  simp only [hasReadonlyOff, List.any_eq_false] at h ⊢
  exact fun s hs => h s (List.take_subset _ _ hs)

theorem hasOff_scriptStmts (t : ScriptTag) (p : TaskParams)
    (h : t ≠ ScriptTag.syncStandbyCr) : hasReadonlyOff (scriptStmts t p) = false := by
  cases t <;>
    simp_all [scriptStmts, dst_drop_sub_stmts, src_create_pub_and_rs_stmts,
      dst_create_tab_and_sub_stmts, mp_prev_sql_stmts, mp_dst_sql_stmts,
      mp_sync_standby_prev_stmts, mp_next_sql_stmts, mp_sync_standby_dst_stmts,
      cr_drop_cp_sub_stmts, cr_create_data_pub_stmts, cr_create_data_sub_stmts,
      hasReadonlyOff] <;>
    cases p.nextNode <;> simp

@[simp] theorem configure_retry_curstep (d : Delay) (st : CpTask) :
    (configure_retry d st).curstep = st.curstep := rfl

@[simp] theorem configure_retry_res (d : Delay) (st : CpTask) :
    (configure_retry d st).res = st.res := rfl

@[simp] theorem configure_retry_syncPoint (d : Delay) (st : CpTask) :
    (configure_retry d st).syncPoint = st.syncPoint := rfl

@[simp] theorem configure_retry_execRes (d : Delay) (st : CpTask) :
    (configure_retry d st).execRes = ExecRes.wakeMeUp := rfl

@[simp] theorem configure_retry_waketm (d : Delay) (st : CpTask) :
    (configure_retry d st).waketm = WakeTm.afterDelay d := rfl

/-! Membership lemmas relating stepSet events and stepValues. -/

theorem mem_stepValues {s : Step} {tr : List Ev} :
    s ∈ stepValues tr ↔ Ev.stepSet s ∈ tr := by
  constructor
  · intro h
    simp only [stepValues, List.mem_filterMap] at h
    obtain ⟨a, ha, hfa⟩ := h
    cases a <;> simp_all
  · intro h
    simp only [stepValues, List.mem_filterMap]
    exact ⟨Ev.stepSet s, h, rfl⟩

theorem no_stepSet_of_stepValues_nil {s : Step} {tr : List Ev}
    (h : stepValues tr = []) : Ev.stepSet s ∉ tr := by
  intro hmem
  have := mem_stepValues.mpr hmem
  simp [h] at this

/-! Per-phase specification lemmas. -/

theorem ts_spec (p : TaskParams) (e : TablesyncEnv) (st : CpTask) :
    ((cp_start_tablesync p e st).1 = true →
      (cp_start_tablesync p e st).2.1 = { st with curstep := Step.startFinalsync } ∧
      stepValues (cp_start_tablesync p e st).2.2 = [Step.startFinalsync]) ∧
    ((cp_start_tablesync p e st).1 = false →
      ((cp_start_tablesync p e st).2.1 = configure_retry .cmdRetryNaptime st ∨
       (cp_start_tablesync p e st).2.1 = configure_retry .pollInterval st) ∧
      stepValues (cp_start_tablesync p e st).2.2 = []) ∧
    metaCount (cp_start_tablesync p e st).2.2 = 0 ∧
    hasReadonlyOff (stmtsExecuted (cp_start_tablesync p e st).2.2) = false := by
  obtain ⟨ens, ms, md, o1, o2, o3⟩ := e
  cases ens <;> cases ms <;> cases md <;> cases o1 <;> cases o2 <;> cases o3 <;>
    simp [cp_start_tablesync, seqR, ensurePq, remoteExecScript,
      hasOff_scriptStmts, hasReadonlyOff_take]

theorem fs_spec (p : TaskParams) (e : FinalsyncEnv) (st : CpTask) :
    ((cp_start_finalsync p e st).1 = true →
      (cp_start_finalsync p e st).2.1 =
        { st with curstep := Step.finalize,
                  syncPoint := (cp_start_finalsync p e st).2.1.syncPoint } ∧
      stepValues (cp_start_finalsync p e st).2.2 = [Step.finalize] ∧
      Ev.stmtOne (Stmt.readonlyTableOn p.partName) ∈ (cp_start_finalsync p e st).2.2) ∧
    ((cp_start_finalsync p e st).1 = false →
      ((cp_start_finalsync p e st).2.1 = configure_retry .cmdRetryNaptime st ∨
       (cp_start_finalsync p e st).2.1 = configure_retry .pollInterval st) ∧
      stepValues (cp_start_finalsync p e st).2.2 = []) ∧
    metaCount (cp_start_finalsync p e st).2.2 = 0 ∧
    hasReadonlyOff (stmtsExecuted (cp_start_finalsync p e st).2.2) = false := by
  obtain ⟨ens, sub, ro, lsn⟩ := e
  cases ens
  · simp [cp_start_finalsync, seqR, ensurePq]
  · cases sub with
    | none => simp [cp_start_finalsync, seqR, ensurePq]
    | some rows =>
      rcases rows with _ | ⟨c, _ | ⟨d, rest⟩⟩
      · simp [cp_start_finalsync, seqR, ensurePq]
      · by_cases hc : c = SUBREL_STATE_READY
        · cases ro
          · simp [cp_start_finalsync, seqR, ensurePq, hc]
          · cases lsn <;>
              simp [cp_start_finalsync, seqR, ensurePq, hc, hasReadonlyOff]
        · simp [cp_start_finalsync, seqR, ensurePq, hc]
      · simp [cp_start_finalsync, seqR, ensurePq]

theorem fz_spec (p : TaskParams) (e : FinalizeEnv) (st : CpTask) :
    ((cp_finalize p e st).1 = true →
      (cp_finalize p e st).2.1 = { st with curstep := Step.done } ∧
      stepValues (cp_finalize p e st).2.2 = [Step.done]) ∧
    ((cp_finalize p e st).1 = false →
      ((cp_finalize p e st).2.1 = configure_retry .cmdRetryNaptime st ∨
       (cp_finalize p e st).2.1 = configure_retry .pollInterval st) ∧
      stepValues (cp_finalize p e st).2.2 = []) ∧
    metaCount (cp_finalize p e st).2.2 = 0 ∧
    hasReadonlyOff (stmtsExecuted (cp_finalize p e st).2.2) = false := by
  obtain ⟨ens, rcv⟩ := e
  cases ens
  · simp [cp_finalize, seqR, ensurePq]
  · cases rcv with
    | none => simp [cp_finalize, seqR, ensurePq]
    | some l =>
      by_cases hl : l < st.syncPoint
      · simp [cp_finalize, seqR, ensurePq, hl]
      · simp [cp_finalize, seqR, ensurePq, hl]

/-! Composition lemmas for the rebuild chains. -/

theorem goodW_init (st : CpTask) : GoodAccW st (true, st, []) := by
  simp [GoodAccW]

theorem good_init (st : CpTask) : GoodAcc st (true, st, []) := by
  simp [GoodAcc, GoodAccW]

theorem goodW_seqR {st0 : CpTask} {a : Bool × CpTask × List Ev}
    {f : CpTask → Bool × CpTask × List Ev}
    (ha : GoodAccW st0 a) (hf : ∀ s, GoodAccW s (f s)) :
    GoodAccW st0 (seqR a f) := by
  obtain ⟨b, s, ev⟩ := a
  obtain ⟨ha1, ha2, ha3, ha4, ha5⟩ := ha
  cases b
  · exact ⟨ha1, ha2, ha3, ha4, ha5⟩
  · have hs : s = st0 := ha1 rfl
    subst hs
    obtain ⟨hf1, hf2, hf3, hf4, hf5⟩ := hf s
    refine ⟨?_, ?_, ?_, ?_, ?_⟩ <;>
      rcases hfs : f s with ⟨ok, s2, ev2⟩ <;>
      simp only [seqR, hfs] at *
    · intro h; subst h; exact hf1 rfl
    · intro h; subst h; exact hf2 rfl
    · simp [ha3, hf3]
    · simp [ha4, hf4]
    · intro x hx
      rcases List.mem_append.mp hx with h | h
      · exact ha5 x h
      · exact hf5 x h

theorem good_seqR {st0 : CpTask} {a : Bool × CpTask × List Ev}
    {f : CpTask → Bool × CpTask × List Ev}
    (ha : GoodAcc st0 a) (hf : ∀ s, GoodAcc s (f s)) :
    GoodAcc st0 (seqR a f) := by
  obtain ⟨haW, haO⟩ := ha
  refine ⟨goodW_seqR haW (fun s => (hf s).1), ?_⟩
  obtain ⟨b, s, ev⟩ := a
  cases b
  · exact haO
  · have hs : s = st0 := haW.1 rfl
    subst hs
    rcases hfs : f s with ⟨ok, s2, ev2⟩
    have := (hf s).2
    rw [hfs] at this
    simp only [seqR, hfs]
    simp_all

theorem goodW_ensure (b : Bool) (s : CpTask) : GoodAccW s (ensurePq b s) := by
  cases b <;> simp [GoodAccW, ensurePq]

theorem good_ensure (b : Bool) (s : CpTask) : GoodAcc s (ensurePq b s) := by
  cases b <;> simp [GoodAcc, GoodAccW, ensurePq]

theorem goodW_script (t : ScriptTag) (p : TaskParams) (o : ROutcome) (s : CpTask)
    (hrt : ∀ l, Ev.isReconfig (Ev.script t l) = true) :
    GoodAccW s (remoteExecScript t p o s) := by
  cases o <;> simp [GoodAccW, remoteExecScript, hrt]

theorem good_script (t : ScriptTag) (p : TaskParams) (o : ROutcome) (s : CpTask)
    (hrt : ∀ l, Ev.isReconfig (Ev.script t l) = true)
    (ht : t ≠ ScriptTag.syncStandbyCr) :
    GoodAcc s (remoteExecScript t p o s) := by
  refine ⟨goodW_script t p o s hrt, ?_⟩
  cases o <;>
    simp [remoteExecScript, hasOff_scriptStmts t p ht,
      hasReadonlyOff_take _ _ (hasOff_scriptStmts t p ht)]

theorem frontOf_refl {α : Type} (l : List α) : frontOf l l := ⟨[], List.append_nil l⟩

theorem frontOf_nil {α : Type} (l : List α) : frontOf [] l := ⟨l, rfl⟩

theorem frontOf_ext {α : Type} {l1 l2 : List α} (L2 : List α)
    (h : frontOf l1 l2) : frontOf l1 (l2 ++ L2) := by
  obtain ⟨t, ht⟩ := h
  exact ⟨t ++ L2, by rw [← List.append_assoc, ht]⟩

theorem frontOf_append {α : Type} {l2 L2 : List α} (l1 : List α)
    (h : frontOf l2 L2) : frontOf (l1 ++ l2) (l1 ++ L2) := by
  obtain ⟨t, ht⟩ := h
  exact ⟨t, by rw [List.append_assoc, ht]⟩

theorem accTags_init (st : CpTask) (ev : List Ev) (h : scriptTags ev = []) :
    AccTags [] (true, st, ev) := by
  constructor
  · simpa [AccTags, h] using frontOf_refl []
  · intro
    simpa using h

theorem accTags_seqR {L1 L2 : List ScriptTag} {a : Bool × CpTask × List Ev}
    {f : CpTask → Bool × CpTask × List Ev}
    (ha : AccTags L1 a) (hf : ∀ s, AccTags L2 (f s)) :
    AccTags (L1 ++ L2) (seqR a f) := by
  obtain ⟨b, s, ev⟩ := a
  obtain ⟨ha1, ha2⟩ := ha
  cases b
  · exact ⟨frontOf_ext L2 ha1, fun h => by cases h⟩
  · have hev : scriptTags ev = L1 := ha2 rfl
    obtain ⟨hf1, hf2⟩ := hf s
    rcases hfs : f s with ⟨ok, s2, ev2⟩
    rw [hfs] at hf1 hf2
    have hgoal : (seqR (true, s, ev) f).2.2 = ev ++ ev2 := by
      simp [seqR, hfs]
    constructor
    · rw [hgoal, scriptTags_append, hev]
      exact frontOf_append L1 hf1
    · intro h
      have hok : ok = true := by
        simpa [seqR, hfs] using h
      rw [hgoal, scriptTags_append, hev, hf2 hok]

theorem accTags_ensure (b : Bool) (s : CpTask) : AccTags [] (ensurePq b s) := by
  cases b <;> simp [AccTags, ensurePq, frontOf_refl]

theorem accTags_script (t : ScriptTag) (p : TaskParams) (o : ROutcome) (s : CpTask) :
    AccTags [t] (remoteExecScript t p o s) := by
  cases o <;> simp [AccTags, remoteExecScript, scriptTags, frontOf_refl]

theorem mp_rebuild_good (p : TaskParams) (e : RebuildEnv) (st : CpTask) :
    GoodAcc st (mp_rebuild_lr p e st) := by
  have hsyncP : ∀ s, GoodAcc s
      (if p.syncReplicas then remoteExecScript .syncStandbyPrev p e.syncPrevExec s
       else (true, s, [])) := by
    intro s
    cases hs : p.syncReplicas
    · simpa [hs] using good_init s
    · simpa [hs] using
        good_script .syncStandbyPrev p e.syncPrevExec s (fun _ => rfl) (by decide)
  have hsyncD : ∀ s, GoodAcc s
      (if p.syncReplicas then remoteExecScript .syncStandbyDst p e.syncDstExec s
       else (true, s, [])) := by
    intro s
    cases hs : p.syncReplicas
    · simpa [hs] using good_init s
    · simpa [hs] using
        good_script .syncStandbyDst p e.syncDstExec s (fun _ => rfl) (by decide)
  unfold mp_rebuild_lr
  by_cases hp : p.prevNode.isSome = true <;> by_cases hn : p.nextNode.isSome = true <;>
    simp only [hp, hn, if_true, if_false, Bool.false_eq_true, ite_true, ite_false]
  · exact good_seqR (good_seqR (good_seqR (good_seqR (good_seqR (good_seqR
      (good_seqR (good_seqR (good_init st)
        (fun s => good_ensure e.prevEnsure s))
        (fun s => good_script .prevSql p e.prevExec s (fun _ => rfl) (by decide)))
        (fun s => good_ensure e.dstEnsure s))
        (fun s => good_script .dstSql p e.dstExec s (fun _ => rfl) (by decide)))
        hsyncP)
        (fun s => good_ensure e.nextEnsure s))
        (fun s => good_script .nextSql p e.nextExec s (fun _ => rfl) (by decide)))
        hsyncD
  · exact good_seqR (good_seqR (good_seqR (good_seqR (good_seqR (good_init st)
        (fun s => good_ensure e.prevEnsure s))
        (fun s => good_script .prevSql p e.prevExec s (fun _ => rfl) (by decide)))
        (fun s => good_ensure e.dstEnsure s))
        (fun s => good_script .dstSql p e.dstExec s (fun _ => rfl) (by decide)))
        hsyncP
  · exact good_seqR (good_seqR (good_seqR (good_seqR (good_seqR (good_init st)
        (fun s => good_ensure e.dstEnsure s))
        (fun s => good_script .dstSql p e.dstExec s (fun _ => rfl) (by decide)))
        (fun s => good_ensure e.nextEnsure s))
        (fun s => good_script .nextSql p e.nextExec s (fun _ => rfl) (by decide)))
        hsyncD
  · exact good_seqR (good_seqR (good_init st)
        (fun s => good_ensure e.dstEnsure s))
        (fun s => good_script .dstSql p e.dstExec s (fun _ => rfl) (by decide))

theorem cr_rebuild_goodW (p : TaskParams) (e : CrRebuildEnv) (st : CpTask) :
    GoodAccW st (cr_rebuild_lr p e st) := by
  have hsync : ∀ s, GoodAccW s
      (if p.syncReplicas then remoteExecScript .syncStandbyCr p e.syncStandby s
       else (true, s, [])) := by
    intro s
    cases hs : p.syncReplicas
    · simpa [hs] using goodW_init s
    · simpa [hs] using goodW_script .syncStandbyCr p e.syncStandby s (fun _ => rfl)
  unfold cr_rebuild_lr
  exact goodW_seqR (goodW_seqR (goodW_seqR (goodW_seqR
    (goodW_ensure e.ensureOk st)
    (fun s => goodW_script .dropCpSub p e.dropCpSub s (fun _ => rfl)))
    (fun s => goodW_script .createDataPub p e.createDataPub s (fun _ => rfl)))
    (fun s => goodW_script .createDataSub p e.createDataSub s (fun _ => rfl)))
    hsync

theorem cr_rebuild_good (p : TaskParams) (e : CrRebuildEnv) (st : CpTask)
    (hs : p.syncReplicas = false) : GoodAcc st (cr_rebuild_lr p e st) := by
  have hsync : ∀ s, GoodAcc s
      (if p.syncReplicas then remoteExecScript .syncStandbyCr p e.syncStandby s
       else (true, s, [])) := by
    intro s
    simpa [hs] using good_init s
  unfold cr_rebuild_lr
  exact good_seqR (good_seqR (good_seqR (good_seqR
    (good_ensure e.ensureOk st)
    (fun s => good_script .dropCpSub p e.dropCpSub s (fun _ => rfl) (by decide)))
    (fun s => good_script .createDataPub p e.createDataPub s (fun _ => rfl) (by decide)))
    (fun s => good_script .createDataSub p e.createDataSub s (fun _ => rfl) (by decide)))
    hsync

theorem mp_rebuild_tags (p : TaskParams) (e : RebuildEnv) (st : CpTask) :
    AccTags (mpGuardedTags p) (mp_rebuild_lr p e st) := by
  unfold mp_rebuild_lr
  by_cases hp : p.prevNode.isSome = true <;> by_cases hn : p.nextNode.isSome = true <;>
    by_cases hs : p.syncReplicas = true
  · simpa [mpGuardedTags, hp, hn, hs] using
      accTags_seqR (accTags_seqR (accTags_seqR (accTags_seqR (accTags_seqR
        (accTags_seqR (accTags_seqR (accTags_seqR (accTags_init st [] rfl)
        (fun s => accTags_ensure e.prevEnsure s))
        (fun s => accTags_script .prevSql p e.prevExec s))
        (fun s => accTags_ensure e.dstEnsure s))
        (fun s => accTags_script .dstSql p e.dstExec s))
        (fun s => accTags_script .syncStandbyPrev p e.syncPrevExec s))
        (fun s => accTags_ensure e.nextEnsure s))
        (fun s => accTags_script .nextSql p e.nextExec s))
        (fun s => accTags_script .syncStandbyDst p e.syncDstExec s)
  · simpa [mpGuardedTags, hp, hn, hs] using
      accTags_seqR (accTags_seqR (accTags_seqR (accTags_seqR (accTags_seqR
        (accTags_seqR (accTags_seqR (accTags_seqR (accTags_init st [] rfl)
        (fun s => accTags_ensure e.prevEnsure s))
        (fun s => accTags_script .prevSql p e.prevExec s))
        (fun s => accTags_ensure e.dstEnsure s))
        (fun s => accTags_script .dstSql p e.dstExec s))
        (fun s => accTags_init s [] rfl))
        (fun s => accTags_ensure e.nextEnsure s))
        (fun s => accTags_script .nextSql p e.nextExec s))
        (fun s => accTags_init s [] rfl)
  · simpa [mpGuardedTags, hp, hn, hs] using
      accTags_seqR (accTags_seqR (accTags_seqR (accTags_seqR (accTags_seqR
        (accTags_init st [] rfl)
        (fun s => accTags_ensure e.prevEnsure s))
        (fun s => accTags_script .prevSql p e.prevExec s))
        (fun s => accTags_ensure e.dstEnsure s))
        (fun s => accTags_script .dstSql p e.dstExec s))
        (fun s => accTags_script .syncStandbyPrev p e.syncPrevExec s)
  · simpa [mpGuardedTags, hp, hn, hs] using
      accTags_seqR (accTags_seqR (accTags_seqR (accTags_seqR (accTags_seqR
        (accTags_init st [] rfl)
        (fun s => accTags_ensure e.prevEnsure s))
        (fun s => accTags_script .prevSql p e.prevExec s))
        (fun s => accTags_ensure e.dstEnsure s))
        (fun s => accTags_script .dstSql p e.dstExec s))
        (fun s => accTags_init s [] rfl)
  · simpa [mpGuardedTags, hp, hn, hs] using
      accTags_seqR (accTags_seqR (accTags_seqR (accTags_seqR (accTags_seqR
        (accTags_init st [] rfl)
        (fun s => accTags_ensure e.dstEnsure s))
        (fun s => accTags_script .dstSql p e.dstExec s))
        (fun s => accTags_ensure e.nextEnsure s))
        (fun s => accTags_script .nextSql p e.nextExec s))
        (fun s => accTags_script .syncStandbyDst p e.syncDstExec s)
  · simpa [mpGuardedTags, hp, hn, hs] using
      accTags_seqR (accTags_seqR (accTags_seqR (accTags_seqR (accTags_seqR
        (accTags_init st [] rfl)
        (fun s => accTags_ensure e.dstEnsure s))
        (fun s => accTags_script .dstSql p e.dstExec s))
        (fun s => accTags_ensure e.nextEnsure s))
        (fun s => accTags_script .nextSql p e.nextExec s))
        (fun s => accTags_init s [] rfl)
  · simpa [mpGuardedTags, hp, hn, hs] using
      accTags_seqR (accTags_seqR (accTags_init st [] rfl)
        (fun s => accTags_ensure e.dstEnsure s))
        (fun s => accTags_script .dstSql p e.dstExec s)
  · simpa [mpGuardedTags, hp, hn, hs] using
      accTags_seqR (accTags_seqR (accTags_init st [] rfl)
        (fun s => accTags_ensure e.dstEnsure s))
        (fun s => accTags_script .dstSql p e.dstExec s)

/-! The early-exit characterization of mp_rebuild_lr: the attempted
script tags are exactly the walk of the guarded list that stops at the
first sub-step that does not fully succeed. -/

theorem mpAttempt_all {e : RebuildEnv} {L : List ScriptTag}
    (h : L.all (mpSucceeds e) = true) : mpAttempt e L = L := by
  induction L with
  | nil => rfl
  | cons t rest ih =>
    rw [List.all_cons, Bool.and_eq_true] at h
    simp [mpAttempt, h.1, ih h.2]

theorem mpAttempt_append_all {e : RebuildEnv} {L1 : List ScriptTag} (L2 : List ScriptTag)
    (h : L1.all (mpSucceeds e) = true) :
    mpAttempt e (L1 ++ L2) = L1 ++ mpAttempt e L2 := by
  induction L1 with
  | nil => rfl
  | cons t rest ih =>
    rw [List.all_cons, Bool.and_eq_true] at h
    simp [mpAttempt, h.1, ih h.2]

theorem mpAttempt_append_fail {e : RebuildEnv} {L1 : List ScriptTag} (L2 : List ScriptTag)
    (h : L1.all (mpSucceeds e) = false) :
    mpAttempt e (L1 ++ L2) = mpAttempt e L1 := by
  induction L1 with
  | nil => simp at h
  | cons t rest ih =>
    by_cases hsu : mpSucceeds e t = true
    · have hr : rest.all (mpSucceeds e) = false := by
        rw [List.all_cons, hsu, Bool.true_and] at h
        exact h
      simp [mpAttempt, hsu, ih hr]
    · have hsu2 : mpSucceeds e t = false := by
        cases hx : mpSucceeds e t
        · rfl
        · exact absurd hx hsu
      simp [mpAttempt, hsu2]

theorem accChar_init (e : RebuildEnv) (st : CpTask) :
    AccChar e [] (true, st, []) := by
  exact ⟨rfl, by simp⟩

theorem accChar_sub {e : RebuildEnv} {L1 : List ScriptTag} {a : Bool × CpTask × List Ev}
    (t : ScriptTag) (b : Bool) (o : ROutcome) (p : TaskParams)
    (ha : AccChar e L1 a) (hsuc : mpSucceeds e t = (b && execOk o))
    (hent : mpEntered e t = b) :
    AccChar e (L1 ++ [t]) (seqR (seqR a (ensurePq b)) (remoteExecScript t p o)) := by
  obtain ⟨ok, s, ev⟩ := a
  obtain ⟨h1, h2⟩ := ha
  cases ok with
  | false =>
    have hall : L1.all (mpSucceeds e) = false := by
      cases hLa : L1.all (mpSucceeds e)
      · rfl
      · simpa using h2.mpr hLa
    refine ⟨?_, ?_⟩
    · show scriptTags ev = mpAttempt e (L1 ++ [t])
      rw [mpAttempt_append_fail [t] hall]
      exact h1
    · show (false = true ↔ (L1 ++ [t]).all (mpSucceeds e) = true)
      simp [List.all_append, hall]
  | true =>
    have hall : L1.all (mpSucceeds e) = true := h2.mp rfl
    have hev : scriptTags ev = L1 := by rw [h1, mpAttempt_all hall]
    have hA : mpAttempt e (L1 ++ [t]) = L1 ++ mpAttempt e [t] :=
      mpAttempt_append_all [t] hall
    cases b with
    | false =>
      refine ⟨?_, ?_⟩
      · simp [seqR, ensurePq, hA, mpAttempt, hsuc, hent, hev]
      · simp [seqR, ensurePq, List.all_append, List.all_cons, hsuc]
    | true =>
      cases o with
      | ok =>
        refine ⟨?_, ?_⟩
        · simp [seqR, ensurePq, remoteExecScript, hA, mpAttempt, hsuc, execOk, hev]
        · simp [seqR, ensurePq, remoteExecScript, List.all_append, List.all_cons,
            hsuc, execOk, hall]
      | failAt k =>
        refine ⟨?_, ?_⟩
        · simp [seqR, ensurePq, remoteExecScript, hA, mpAttempt, hsuc, execOk,
            hent, hev]
        · simp [seqR, ensurePq, remoteExecScript, List.all_append, List.all_cons,
            hsuc, execOk]

theorem accChar_script {e : RebuildEnv} {L1 : List ScriptTag} {a : Bool × CpTask × List Ev}
    (t : ScriptTag) (o : ROutcome) (p : TaskParams)
    (ha : AccChar e L1 a) (hsuc : mpSucceeds e t = execOk o)
    (hent : mpEntered e t = true) :
    AccChar e (L1 ++ [t]) (seqR a (remoteExecScript t p o)) := by
  obtain ⟨ok, s, ev⟩ := a
  obtain ⟨h1, h2⟩ := ha
  cases ok with
  | false =>
    have hall : L1.all (mpSucceeds e) = false := by
      cases hLa : L1.all (mpSucceeds e)
      · rfl
      · simpa using h2.mpr hLa
    refine ⟨?_, ?_⟩
    · show scriptTags ev = mpAttempt e (L1 ++ [t])
      rw [mpAttempt_append_fail [t] hall]
      exact h1
    · show (false = true ↔ (L1 ++ [t]).all (mpSucceeds e) = true)
      simp [List.all_append, hall]
  | true =>
    have hall : L1.all (mpSucceeds e) = true := h2.mp rfl
    have hev : scriptTags ev = L1 := by rw [h1, mpAttempt_all hall]
    have hA : mpAttempt e (L1 ++ [t]) = L1 ++ mpAttempt e [t] :=
      mpAttempt_append_all [t] hall
    cases o with
    | ok =>
      refine ⟨?_, ?_⟩
      · simp [seqR, remoteExecScript, hA, mpAttempt, hsuc, execOk, hev]
      · simp [seqR, remoteExecScript, List.all_append, List.all_cons,
          hsuc, execOk, hall]
    | failAt k =>
      refine ⟨?_, ?_⟩
      · simp [seqR, remoteExecScript, hA, mpAttempt, hsuc, execOk, hent, hev]
      · simp [seqR, remoteExecScript, List.all_append, List.all_cons, hsuc, execOk]

theorem accChar_skip {e : RebuildEnv} {L1 : List ScriptTag} {a : Bool × CpTask × List Ev}
    (ha : AccChar e L1 a) :
    AccChar e L1 (seqR a (fun s => (true, s, []))) := by
  obtain ⟨ok, s, ev⟩ := a
  obtain ⟨h1, h2⟩ := ha
  cases ok with
  | false => exact ⟨h1, h2⟩
  | true => exact ⟨by simpa [seqR] using h1, by simpa [seqR] using h2⟩

theorem mp_rebuild_attempt (p : TaskParams) (e : RebuildEnv) (st : CpTask) :
    AccChar e (mpGuardedTags p) (mp_rebuild_lr p e st) := by
  unfold mp_rebuild_lr
  by_cases hp : p.prevNode.isSome = true <;> by_cases hn : p.nextNode.isSome = true <;>
    by_cases hs : p.syncReplicas = true
  · simpa [mpGuardedTags, hp, hn, hs] using
      accChar_script .syncStandbyDst e.syncDstExec p
        (accChar_sub .nextSql e.nextEnsure e.nextExec p
          (accChar_script .syncStandbyPrev e.syncPrevExec p
            (accChar_sub .dstSql e.dstEnsure e.dstExec p
              (accChar_sub .prevSql e.prevEnsure e.prevExec p
                (accChar_init e st) rfl rfl)
              rfl rfl)
            rfl rfl)
          rfl rfl)
        rfl rfl
  · simpa [mpGuardedTags, hp, hn, hs] using
      accChar_skip
        (accChar_sub .nextSql e.nextEnsure e.nextExec p
          (accChar_skip
            (accChar_sub .dstSql e.dstEnsure e.dstExec p
              (accChar_sub .prevSql e.prevEnsure e.prevExec p
                (accChar_init e st) rfl rfl)
              rfl rfl))
          rfl rfl)
  · simpa [mpGuardedTags, hp, hn, hs] using
      accChar_script .syncStandbyPrev e.syncPrevExec p
        (accChar_sub .dstSql e.dstEnsure e.dstExec p
          (accChar_sub .prevSql e.prevEnsure e.prevExec p
            (accChar_init e st) rfl rfl)
          rfl rfl)
        rfl rfl
  · simpa [mpGuardedTags, hp, hn, hs] using
      accChar_skip
        (accChar_sub .dstSql e.dstEnsure e.dstExec p
          (accChar_sub .prevSql e.prevEnsure e.prevExec p
            (accChar_init e st) rfl rfl)
          rfl rfl)
  · simpa [mpGuardedTags, hp, hn, hs] using
      accChar_script .syncStandbyDst e.syncDstExec p
        (accChar_sub .nextSql e.nextEnsure e.nextExec p
          (accChar_sub .dstSql e.dstEnsure e.dstExec p
            (accChar_init e st) rfl rfl)
          rfl rfl)
        rfl rfl
  · simpa [mpGuardedTags, hp, hn, hs] using
      accChar_skip
        (accChar_sub .nextSql e.nextEnsure e.nextExec p
          (accChar_sub .dstSql e.dstEnsure e.dstExec p
            (accChar_init e st) rfl rfl)
          rfl rfl)
  · simpa [mpGuardedTags, hp, hn, hs] using
      accChar_sub .dstSql e.dstEnsure e.dstExec p
        (accChar_init e st) rfl rfl
  · simpa [mpGuardedTags, hp, hn, hs] using
      accChar_sub .dstSql e.dstEnsure e.dstExec p
        (accChar_init e st) rfl rfl

/-! The exec_cp invocation lemmas. -/

theorem exec_cp_done (p : TaskParams) (e : CpEnv) (st : CpTask)
    (h : st.curstep = Step.done) :
    exec_cp p e st = ({ st with waketm := WakeTm.invalid }, []) := by
  simp [exec_cp, phaseRun, h]

theorem cpSpec_retry (p : TaskParams) {st stX : CpTask} (d : Delay) {ev : List Ev}
    (hup : upTo stX.curstep = upTo st.curstep ++ stepValues ev)
    (hres : stX.res = st.res) (hm : metaCount ev = 0)
    (ho : hasReadonlyOff (stmtsExecuted ev) = false)
    (hro : Ev.stepSet Step.finalize ∈ ev →
      Ev.stmtOne (Stmt.readonlyTableOn p.partName) ∈ ev) :
    CpSpec p st (configure_retry d stX, ev) := by
  exact ⟨by simpa using hup, by simpa using hres, hm, fun _ => rfl, hro, ho⟩

theorem cpSpec_noRetry (p : TaskParams) {st stX : CpTask} {ev : List Ev}
    (hup : upTo stX.curstep = upTo st.curstep ++ stepValues ev)
    (hres : stX.res = st.res) (hdone : stX.curstep = Step.done)
    (hm : metaCount ev = 0)
    (ho : hasReadonlyOff (stmtsExecuted ev) = false)
    (hro : Ev.stepSet Step.finalize ∈ ev →
      Ev.stmtOne (Stmt.readonlyTableOn p.partName) ∈ ev) :
    CpSpec p st (stX, ev) := by
  exact ⟨hup, hres, hm, fun hc => absurd hdone hc, hro, ho⟩

theorem stepSet_not_mem {s : Step} {tr : List Ev} (h : s ∉ stepValues tr) :
    Ev.stepSet s ∉ tr :=
  fun hm => h (mem_stepValues.mpr hm)


theorem exec_cp_spec (p : TaskParams) (e : CpEnv) (st : CpTask) :
    CpSpec p st (exec_cp p e st) := by
  rcases hstep : st.curstep with _ | _ | _ | _
  · -- startTablesync
    rcases h1 : cp_start_tablesync p e.ts { st with waketm := WakeTm.invalid }
      with ⟨ok1, s1, ev1⟩
    have T := ts_spec p e.ts { st with waketm := WakeTm.invalid }
    rw [h1] at T
    rw [hstep] at h1
    cases ok1
    · have Tf : (s1 = configure_retry .cmdRetryNaptime { st with waketm := WakeTm.invalid } ∨
          s1 = configure_retry .pollInterval { st with waketm := WakeTm.invalid }) ∧
          stepValues ev1 = [] := T.2.1 rfl
      have Tm : metaCount ev1 = 0 := T.2.2.1
      have To : hasReadonlyOff (stmtsExecuted ev1) = false := T.2.2.2
      have hr : exec_cp p e st = (s1, ev1) := by
        simp [exec_cp, phaseRun, hstep, h1]
      rw [hr]
      rcases Tf.1 with h | h <;> subst h <;>
        exact cpSpec_retry p _ (by simp [Tf.2]) (by simp) Tm To
          (fun hm2 => absurd hm2 (stepSet_not_mem (by simp [Tf.2])))
    · have Ts : s1 = { st with
            waketm := WakeTm.invalid
            curstep := Step.startFinalsync } ∧
          stepValues ev1 = [Step.startFinalsync] := T.1 rfl
      have Tm : metaCount ev1 = 0 := T.2.2.1
      have To : hasReadonlyOff (stmtsExecuted ev1) = false := T.2.2.2
      have hs1c : s1.curstep = Step.startFinalsync := by rw [Ts.1]
      have hs1res : s1.res = st.res := by rw [Ts.1]
      rcases h2 : cp_start_finalsync p e.fs s1 with ⟨ok2, s2, ev2⟩
      have F := fs_spec p e.fs s1
      rw [h2] at F
      cases ok2
      · have Ff : (s2 = configure_retry .cmdRetryNaptime s1 ∨
            s2 = configure_retry .pollInterval s1) ∧ stepValues ev2 = [] := F.2.1 rfl
        have Fm : metaCount ev2 = 0 := F.2.2.1
        have Fo : hasReadonlyOff (stmtsExecuted ev2) = false := F.2.2.2
        have hr : exec_cp p e st = (s2, ev1 ++ ev2) := by
          simp [exec_cp, phaseRun, hstep, h1, h2, hs1c]
        rw [hr]
        rcases Ff.1 with h | h <;> subst h <;>
          exact cpSpec_retry p _
            (by simp [hs1c, hstep, Ts.2, Ff.2, upTo])
            (by simp [hs1res]) (by simp [Tm, Fm]) (by simp [To, Fo])
            (fun hm2 => absurd hm2 (stepSet_not_mem (by simp [Ts.2, Ff.2])))
      · have Fs : s2 = { s1 with curstep := Step.finalize, syncPoint := s2.syncPoint } ∧
            stepValues ev2 = [Step.finalize] ∧
            Ev.stmtOne (Stmt.readonlyTableOn p.partName) ∈ ev2 := F.1 rfl
        have Fm : metaCount ev2 = 0 := F.2.2.1
        have Fo : hasReadonlyOff (stmtsExecuted ev2) = false := F.2.2.2
        have hs2c : s2.curstep = Step.finalize := by rw [Fs.1]
        have hs2res : s2.res = st.res := by rw [Fs.1]; simpa using hs1res
        rcases h3 : cp_finalize p e.fz s2 with ⟨ok3, s3, ev3⟩
        have Z := fz_spec p e.fz s2
        rw [h3] at Z
        have hron : Ev.stmtOne (Stmt.readonlyTableOn p.partName) ∈ ev1 ++ (ev2 ++ ev3) :=
          List.mem_append.mpr (Or.inr (List.mem_append.mpr (Or.inl Fs.2.2)))
        cases ok3
        · have Zf : (s3 = configure_retry .cmdRetryNaptime s2 ∨
              s3 = configure_retry .pollInterval s2) ∧ stepValues ev3 = [] := Z.2.1 rfl
          have Zm : metaCount ev3 = 0 := Z.2.2.1
          have Zo : hasReadonlyOff (stmtsExecuted ev3) = false := Z.2.2.2
          have hr : exec_cp p e st = (s3, ev1 ++ (ev2 ++ ev3)) := by
            simp [exec_cp, phaseRun, hstep, h1, h2, h3, hs1c, hs2c]
          rw [hr]
          rcases Zf.1 with h | h <;> subst h <;>
            exact cpSpec_retry p _
              (by simp [hs2c, hstep, Ts.2, Fs.2.1, Zf.2, upTo])
              (by simp [hs2res]) (by simp [Tm, Fm, Zm]) (by simp [To, Fo, Zo])
              (fun _ => hron)
        · have Zs : s3 = { s2 with curstep := Step.done } ∧
              stepValues ev3 = [Step.done] := Z.1 rfl
          have Zm : metaCount ev3 = 0 := Z.2.2.1
          have Zo : hasReadonlyOff (stmtsExecuted ev3) = false := Z.2.2.2
          have hr : exec_cp p e st = (s3, ev1 ++ (ev2 ++ ev3)) := by
            simp [exec_cp, phaseRun, hstep, h1, h2, h3, hs1c, hs2c]
          rw [hr]
          exact cpSpec_noRetry p
            (by simp [Zs.1, hs2c, hstep, Ts.2, Fs.2.1, Zs.2, upTo])
            (by rw [Zs.1]; simpa using hs2res) (by rw [Zs.1])
            (by simp [Tm, Fm, Zm]) (by simp [To, Fo, Zo]) (fun _ => hron)
  · -- startFinalsync
    rcases h2 : cp_start_finalsync p e.fs { st with waketm := WakeTm.invalid }
      with ⟨ok2, s2, ev2⟩
    have F := fs_spec p e.fs { st with waketm := WakeTm.invalid }
    rw [h2] at F
    rw [hstep] at h2
    cases ok2
    · have Ff : (s2 = configure_retry .cmdRetryNaptime { st with waketm := WakeTm.invalid } ∨
          s2 = configure_retry .pollInterval { st with waketm := WakeTm.invalid }) ∧
          stepValues ev2 = [] := F.2.1 rfl
      have Fm : metaCount ev2 = 0 := F.2.2.1
      have Fo : hasReadonlyOff (stmtsExecuted ev2) = false := F.2.2.2
      have hr : exec_cp p e st = (s2, ev2) := by
        simp [exec_cp, phaseRun, hstep, h2]
      rw [hr]
      rcases Ff.1 with h | h <;> subst h <;>
        exact cpSpec_retry p _ (by simp [Ff.2]) (by simp) Fm Fo
          (fun hm2 => absurd hm2 (stepSet_not_mem (by simp [Ff.2])))
    · have Fs : s2 = { st with
            waketm := WakeTm.invalid
            curstep := Step.finalize
            syncPoint := s2.syncPoint } ∧
          stepValues ev2 = [Step.finalize] ∧
          Ev.stmtOne (Stmt.readonlyTableOn p.partName) ∈ ev2 := F.1 rfl
      have Fm : metaCount ev2 = 0 := F.2.2.1
      have Fo : hasReadonlyOff (stmtsExecuted ev2) = false := F.2.2.2
      have hs2c : s2.curstep = Step.finalize := by rw [Fs.1]
      have hs2res : s2.res = st.res := by rw [Fs.1]
      rcases h3 : cp_finalize p e.fz s2 with ⟨ok3, s3, ev3⟩
      have Z := fz_spec p e.fz s2
      rw [h3] at Z
      have hron : Ev.stmtOne (Stmt.readonlyTableOn p.partName) ∈ ev2 ++ ev3 :=
        List.mem_append.mpr (Or.inl Fs.2.2)
      cases ok3
      · have Zf : (s3 = configure_retry .cmdRetryNaptime s2 ∨
            s3 = configure_retry .pollInterval s2) ∧ stepValues ev3 = [] := Z.2.1 rfl
        have Zm : metaCount ev3 = 0 := Z.2.2.1
        have Zo : hasReadonlyOff (stmtsExecuted ev3) = false := Z.2.2.2
        have hr : exec_cp p e st = (s3, ev2 ++ ev3) := by
          simp [exec_cp, phaseRun, hstep, h2, h3, hs2c]
        rw [hr]
        rcases Zf.1 with h | h <;> subst h <;>
          exact cpSpec_retry p _
            (by simp [hs2c, hstep, Fs.2.1, Zf.2, upTo])
            (by simp [hs2res]) (by simp [Fm, Zm]) (by simp [Fo, Zo])
            (fun _ => hron)
      · have Zs : s3 = { s2 with curstep := Step.done } ∧
            stepValues ev3 = [Step.done] := Z.1 rfl
        have Zm : metaCount ev3 = 0 := Z.2.2.1
        have Zo : hasReadonlyOff (stmtsExecuted ev3) = false := Z.2.2.2
        have hr : exec_cp p e st = (s3, ev2 ++ ev3) := by
          simp [exec_cp, phaseRun, hstep, h2, h3, hs2c]
        rw [hr]
        exact cpSpec_noRetry p
          (by simp [Zs.1, hs2c, hstep, Fs.2.1, Zs.2, upTo])
          (by rw [Zs.1]; simpa using hs2res) (by rw [Zs.1])
          (by simp [Fm, Zm]) (by simp [Fo, Zo]) (fun _ => hron)
  · -- finalize
    rcases h3 : cp_finalize p e.fz { st with waketm := WakeTm.invalid }
      with ⟨ok3, s3, ev3⟩
    have Z := fz_spec p e.fz { st with waketm := WakeTm.invalid }
    rw [h3] at Z
    rw [hstep] at h3
    cases ok3
    · have Zf : (s3 = configure_retry .cmdRetryNaptime { st with waketm := WakeTm.invalid } ∨
          s3 = configure_retry .pollInterval { st with waketm := WakeTm.invalid }) ∧
          stepValues ev3 = [] := Z.2.1 rfl
      have Zm : metaCount ev3 = 0 := Z.2.2.1
      have Zo : hasReadonlyOff (stmtsExecuted ev3) = false := Z.2.2.2
      have hr : exec_cp p e st = (s3, ev3) := by
        simp [exec_cp, phaseRun, hstep, h3]
      rw [hr]
      rcases Zf.1 with h | h <;> subst h <;>
        exact cpSpec_retry p _ (by simp [Zf.2]) (by simp) Zm Zo
          (fun hm2 => absurd hm2 (stepSet_not_mem (by simp [Zf.2])))
    · have Zs : s3 = { st with waketm := WakeTm.invalid, curstep := Step.done } ∧
          stepValues ev3 = [Step.done] := Z.1 rfl
      have Zm : metaCount ev3 = 0 := Z.2.2.1
      have Zo : hasReadonlyOff (stmtsExecuted ev3) = false := Z.2.2.2
      have hr : exec_cp p e st = (s3, ev3) := by
        simp [exec_cp, phaseRun, hstep, h3]
      rw [hr]
      exact cpSpec_noRetry p
        (by simp [Zs.1, hstep, Zs.2, upTo])
        (by rw [Zs.1]) (by rw [Zs.1])
        Zm Zo
        (fun hm2 => absurd hm2 (stepSet_not_mem (by simp [Zs.2])))
  · -- done
    rw [exec_cp_done p e st hstep]
    exact cpSpec_noRetry p (by simp [hstep]) (by simp) (by simpa using hstep)
      (by simp) (by simp) (fun hm2 => absurd hm2 (stepSet_not_mem (by simp)))

theorem hasOff_mp_meta (p : TaskParams) :
    hasReadonlyOff (mp_update_metadata_stmts p) = false := by
  simp [mp_update_metadata_stmts, hasReadonlyOff]

theorem hasOff_cr_meta (p : TaskParams) :
    hasReadonlyOff (cr_update_metadata_stmts p) = false := by
  simp [cr_update_metadata_stmts, hasReadonlyOff]

theorem exec_move_part_spec (p : TaskParams) (e : Env) (st : CpTask) :
    TaskSpec p st (exec_move_part p e st) := by
  rcases hc : exec_cp p e.cp st with ⟨s1, ev1⟩
  have C := exec_cp_spec p e.cp st
  rw [hc] at C
  have C1 : upTo s1.curstep = upTo st.curstep ++ stepValues ev1 := C.1
  have C2 : s1.res = st.res := C.2.1
  have C3 : metaCount ev1 = 0 := C.2.2.1
  have C4 : s1.curstep ≠ Step.done → s1.execRes = ExecRes.wakeMeUp := C.2.2.2.1
  have C5 : Ev.stepSet Step.finalize ∈ ev1 →
      Ev.stmtOne (Stmt.readonlyTableOn p.partName) ∈ ev1 := C.2.2.2.2.1
  have C6 : hasReadonlyOff (stmtsExecuted ev1) = false := C.2.2.2.2.2
  by_cases hd : s1.curstep = Step.done
  · by_cases hpn : (p.nextNode.isSome || p.prevNode.isSome) = true
    · rcases hrb : mp_rebuild_lr p e.mpRb s1 with ⟨okb, sb, evb⟩
      have G := mp_rebuild_good p e.mpRb s1
      rw [hrb] at G
      have Gsv : stepValues evb = [] := G.1.2.2.1
      have Gm : metaCount evb = 0 := G.1.2.2.2.1
      have Go : hasReadonlyOff (stmtsExecuted evb) = false := G.2
      cases okb
      · have Gf : sb = configure_retry .cmdRetryNaptime s1 := G.1.2.1 rfl
        have hr : exec_move_part p e st = (sb, ev1 ++ evb) := by
          simp [exec_move_part, hc, hd, hpn, hrb]
        rw [hr]
        subst Gf
        refine ⟨?_, ?_, ?_, ?_, ?_, ?_⟩
        · simp [C1, Gsv]
        · simp [C3, Gm]
        · intro hcnt
          simp [C3, Gm] at hcnt
        · intro _
          simp [C2]
        · intro _
          simp [C6, Go]
        · intro hm
          rcases List.mem_append.mp hm with h | h
          · exact List.mem_append.mpr (Or.inl (C5 h))
          · exact absurd h (stepSet_not_mem (by simp [Gsv]))
      · have Gt : sb = s1 := G.1.1 rfl
        have hr : exec_move_part p e st =
            ({ sb with res := TaskRes.success, execRes := ExecRes.taskDone },
             ev1 ++ evb ++ [Ev.meta (mp_update_metadata_stmts p)]) := by
          simp [exec_move_part, hc, hd, hpn, hrb]
        rw [hr]
        subst Gt
        refine ⟨?_, ?_, ?_, ?_, ?_, ?_⟩
        · simp [C1, Gsv]
        · simp [C3, Gm]
        · intro _
          exact ⟨rfl, rfl, hd⟩
        · intro hcnt
          simp [C3, Gm] at hcnt
        · intro _
          simp [C6, Go, hasOff_mp_meta]
        · intro hm
          rcases List.mem_append.mp hm with h | h
          · rcases List.mem_append.mp h with h' | h'
            · exact List.mem_append.mpr (Or.inl (List.mem_append.mpr (Or.inl (C5 h'))))
            · exact absurd h' (stepSet_not_mem (by simp [Gsv]))
          · simp at h
    · have hr : exec_move_part p e st =
          ({ s1 with res := TaskRes.success, execRes := ExecRes.taskDone },
           ev1 ++ [Ev.meta (mp_update_metadata_stmts p)]) := by
        simp only [exec_move_part, hc]
        rw [if_neg (by simp [hd]), if_neg (by simp_all)]
      rw [hr]
      refine ⟨?_, ?_, ?_, ?_, ?_, ?_⟩
      · simp [C1]
      · simp [C3]
      · intro _
        exact ⟨rfl, rfl, hd⟩
      · intro hcnt
        simp [C3] at hcnt
      · intro _
        simp [C6, hasOff_mp_meta]
      · intro hm
        rcases List.mem_append.mp hm with h | h
        · exact List.mem_append.mpr (Or.inl (C5 h))
        · simp at h
  · have hr : exec_move_part p e st = (s1, ev1) := by
      simp [exec_move_part, hc, hd]
    rw [hr]
    refine ⟨C1, by simp [C3], ?_, ?_, fun _ => C6, C5⟩
    · intro hcnt
      simp [C3] at hcnt
    · intro _
      exact ⟨C2, C4 hd⟩

theorem exec_create_replica_spec (p : TaskParams) (e : Env) (st : CpTask) :
    TaskSpec p st (exec_create_replica p e st) := by
  rcases hc : exec_cp p e.cp st with ⟨s1, ev1⟩
  have C := exec_cp_spec p e.cp st
  rw [hc] at C
  have C1 : upTo s1.curstep = upTo st.curstep ++ stepValues ev1 := C.1
  have C2 : s1.res = st.res := C.2.1
  have C3 : metaCount ev1 = 0 := C.2.2.1
  have C4 : s1.curstep ≠ Step.done → s1.execRes = ExecRes.wakeMeUp := C.2.2.2.1
  have C5 : Ev.stepSet Step.finalize ∈ ev1 →
      Ev.stmtOne (Stmt.readonlyTableOn p.partName) ∈ ev1 := C.2.2.2.2.1
  have C6 : hasReadonlyOff (stmtsExecuted ev1) = false := C.2.2.2.2.2
  by_cases hd : s1.curstep = Step.done
  · rcases hrb : cr_rebuild_lr p e.crRb s1 with ⟨okb, sb, evb⟩
    have G := cr_rebuild_goodW p e.crRb s1
    rw [hrb] at G
    have Gsv : stepValues evb = [] := G.2.2.1
    have Gm : metaCount evb = 0 := G.2.2.2.1
    have Go : p.syncReplicas = false → hasReadonlyOff (stmtsExecuted evb) = false := by
      intro hs
      have h2 := (cr_rebuild_good p e.crRb s1 hs).2
      rw [hrb] at h2
      exact h2
    cases okb
    · have Gf : sb = configure_retry .cmdRetryNaptime s1 := G.2.1 rfl
      have hr : exec_create_replica p e st = (sb, ev1 ++ evb) := by
        simp [exec_create_replica, hc, hd, hrb]
      rw [hr]
      subst Gf
      refine ⟨?_, ?_, ?_, ?_, ?_, ?_⟩
      · simp [C1, Gsv]
      · simp [C3, Gm]
      · intro hcnt
        simp [C3, Gm] at hcnt
      · intro _
        simp [C2]
      · intro hs
        simp [C6, Go hs]
      · intro hm
        rcases List.mem_append.mp hm with h | h
        · exact List.mem_append.mpr (Or.inl (C5 h))
        · exact absurd h (stepSet_not_mem (by simp [Gsv]))
    · have Gt : sb = s1 := G.1 rfl
      have hr : exec_create_replica p e st =
          ({ sb with res := TaskRes.success, execRes := ExecRes.taskDone },
           ev1 ++ evb ++ [Ev.meta (cr_update_metadata_stmts p)]) := by
        simp [exec_create_replica, hc, hd, hrb]
      rw [hr]
      subst Gt
      refine ⟨?_, ?_, ?_, ?_, ?_, ?_⟩
      · simp [C1, Gsv]
      · simp [C3, Gm]
      · intro _
        exact ⟨rfl, rfl, hd⟩
      · intro hcnt
        simp [C3, Gm] at hcnt
      · intro hs
        simp [C6, Go hs, hasOff_cr_meta]
      · intro hm
        rcases List.mem_append.mp hm with h | h
        · rcases List.mem_append.mp h with h' | h'
          · exact List.mem_append.mpr (Or.inl (List.mem_append.mpr (Or.inl (C5 h'))))
          · exact absurd h' (stepSet_not_mem (by simp [Gsv]))
        · simp at h
  · have hr : exec_create_replica p e st = (s1, ev1) := by
      simp [exec_create_replica, hc, hd]
    rw [hr]
    refine ⟨C1, by simp [C3], ?_, ?_, fun _ => C6, C5⟩
    · intro hcnt
      simp [C3] at hcnt
    · intro _
      exact ⟨C2, C4 hd⟩

theorem exec_task_spec (p : TaskParams) (e : Env) (st : CpTask) :
    TaskSpec p st (exec_task p e st) := by
  rcases hk : p.kind with _ | _ | _ <;> simp only [exec_task, hk]
  · exact exec_move_part_spec p e st
  · exact exec_move_part_spec p e st
  · exact exec_create_replica_spec p e st

theorem runLife_inactive (p : TaskParams) (es : List Env) (l : TaskLife)
    (h : l.active = false) : runLife p es l = (l, []) := by
  induction es with
  | nil => rfl
  | cons e rest ih => simp [runLife, lifeStep, h, ih]

theorem runLife_props (p : TaskParams) (es : List Env) (l : TaskLife) :
    upTo (runLife p es l).1.st.curstep
      = upTo l.st.curstep ++ stepValues (runLife p es l).2 ∧
    metaCount (runLife p es l).2 ≤ 1 ∧
    (1 ≤ metaCount (runLife p es l).2 →
      (runLife p es l).1.st.res = TaskRes.success ∧
      (runLife p es l).1.st.execRes = ExecRes.taskDone ∧
      (runLife p es l).1.st.curstep = Step.done ∧
      (runLife p es l).1.active = false) ∧
    (metaCount (runLife p es l).2 = 0 → (runLife p es l).1.st.res = l.st.res) ∧
    (p.syncReplicas = false →
      hasReadonlyOff (stmtsExecuted (runLife p es l).2) = false) ∧
    (Ev.stepSet Step.finalize ∈ (runLife p es l).2 →
      Ev.stmtOne (Stmt.readonlyTableOn p.partName) ∈ (runLife p es l).2) := by
  induction es generalizing l with
  | nil => simp [runLife]
  | cons e rest ih =>
    by_cases ha : l.active = true
    · rcases h1 : exec_task p e l.st with ⟨t1, ev1⟩
      have M := exec_task_spec p e l.st
      rw [h1] at M
      have M1 : upTo t1.curstep = upTo l.st.curstep ++ stepValues ev1 := M.1
      have M2 : metaCount ev1 ≤ 1 := M.2.1
      have M3 : 1 ≤ metaCount ev1 → t1.res = TaskRes.success ∧
          t1.execRes = ExecRes.taskDone ∧ t1.curstep = Step.done := M.2.2.1
      have M4 : metaCount ev1 = 0 →
          t1.res = l.st.res ∧ t1.execRes = ExecRes.wakeMeUp := M.2.2.2.1
      have M5 : p.syncReplicas = false →
          hasReadonlyOff (stmtsExecuted ev1) = false := M.2.2.2.2.1
      have M6 : Ev.stepSet Step.finalize ∈ ev1 →
          Ev.stmtOne (Stmt.readonlyTableOn p.partName) ∈ ev1 := M.2.2.2.2.2
      have hstep2 : runLife p (e :: rest) l =
          ((runLife p rest { st := t1, active := t1.execRes = ExecRes.wakeMeUp }).1,
           ev1 ++ (runLife p rest
             { st := t1, active := t1.execRes = ExecRes.wakeMeUp }).2) := by
        simp [runLife, lifeStep, ha, h1]
      by_cases hz : metaCount ev1 = 0
      · have hM4 := M4 hz
        have I := ih { st := t1, active := t1.execRes = ExecRes.wakeMeUp }
        rw [hstep2]
        refine ⟨?_, ?_, ?_, ?_, ?_, ?_⟩
        · rw [I.1]
          simp [M1]
        · simpa [hz] using I.2.1
        · intro hcnt
          simp only [metaCount_append, hz, Nat.zero_add] at hcnt
          exact I.2.2.1 hcnt
        · intro hcnt
          simp only [metaCount_append, hz, Nat.zero_add] at hcnt
          rw [I.2.2.2.1 hcnt]
          simpa using hM4.1
        · intro hs
          simp [M5 hs, I.2.2.2.2.1 hs]
        · intro hmem
          rcases List.mem_append.mp hmem with h | h
          · exact List.mem_append.mpr (Or.inl (M6 h))
          · exact List.mem_append.mpr (Or.inr (I.2.2.2.2.2 h))
      · have hone : 1 ≤ metaCount ev1 := Nat.one_le_iff_ne_zero.mpr hz
        have hM3 := M3 hone
        have hact : ({ st := t1
                       active := t1.execRes = ExecRes.wakeMeUp } :
            TaskLife).active = false := by
          simp [hM3.2.1]
        have hrest := runLife_inactive p rest _ hact
        rw [hstep2, hrest]
        refine ⟨?_, ?_, ?_, ?_, ?_, ?_⟩
        · simp [M1]
        · simpa using M2
        · intro _
          exact ⟨hM3.1, hM3.2.1, hM3.2.2, hact⟩
        · intro hcnt
          simp at hcnt
          exact absurd hcnt hz
        · intro hs
          simpa using M5 hs
        · intro hmem
          simp only [List.append_nil] at hmem ⊢
          exact M6 hmem
    · have ha2 : l.active = false := by
        simpa using ha
      have hstep2 : runLife p (e :: rest) l = runLife p rest l := by
        simp [runLife, lifeStep, ha2]
      rw [hstep2]
      exact ih l

/-! Claim theorems. -/

/-- C4: for every task and every sequence of scheduler iterations, including
arbitrary retries and transient failures, the sequence of values taken by
the task's curstep field (its initial value StartTablesync followed by
every value assigned during execution) is an initial segment of
StartTablesync, StartFinalsync, Finalize, Done; no operation ever assigns
an earlier step than the current one. -/
theorem c4_step_chain (p : TaskParams) (es : List Env) :
    frontOf
      (Step.startTablesync :: stepValues (runLife p es (initLife freshCpTask)).2)
      [Step.startTablesync, Step.startFinalsync, Step.finalize, Step.done] := by
  have R := runLife_props p es (initLife freshCpTask)
  have h1 : upTo (runLife p es (initLife freshCpTask)).1.st.curstep =
      Step.startTablesync :: stepValues (runLife p es (initLife freshCpTask)).2 := by
    simpa [initLife, freshCpTask, upTo] using R.1
  rw [← h1]
  rcases (runLife p es (initLife freshCpTask)).1.st.curstep with _ | _ | _ | _
  · exact ⟨[Step.startFinalsync, Step.finalize, Step.done], rfl⟩
  · exact ⟨[Step.finalize, Step.done], rfl⟩
  · exact ⟨[Step.done], rfl⟩
  · exact ⟨[], rfl⟩

/-- C3: over a task's whole lifetime under the scheduler, the
metadata-update SPI transaction executes at most once; whenever it has
executed, the task's result is Success, its execution signal is TASK_DONE,
the scheduler has retired it (it is no longer on the timeout list), and no
further scheduler iterations ever execute it again. -/
theorem c3_metadata_once (p : TaskParams) (es : List Env) :
    metaCount (runLife p es (initLife freshCpTask)).2 ≤ 1 ∧
    (1 ≤ metaCount (runLife p es (initLife freshCpTask)).2 →
      (runLife p es (initLife freshCpTask)).1.st.res = TaskRes.success ∧
      (runLife p es (initLife freshCpTask)).1.st.execRes = ExecRes.taskDone ∧
      (runLife p es (initLife freshCpTask)).1.active = false ∧
      ∀ es2 : List Env,
        runLife p es2 (runLife p es (initLife freshCpTask)).1 =
          ((runLife p es (initLife freshCpTask)).1, [])) := by
  have R := runLife_props p es (initLife freshCpTask)
  refine ⟨R.2.1, fun h => ?_⟩
  obtain ⟨hres, hexec, _, hact⟩ := R.2.2.1 h
  exact ⟨hres, hexec, hact, fun es2 => runLife_inactive p es2 _ hact⟩

/-- Witness for C3 at a concrete input: a move task that completes in a
single scheduler iteration has executed its metadata update, is Success,
signals TASK_DONE, and is never run again. -/
theorem c3_metadata_once_witness :
    (runLife mvTask [allOkEnv] (initLife freshCpTask)).1.st.res = TaskRes.success ∧
    (runLife mvTask [allOkEnv] (initLife freshCpTask)).1.active = false :=
  ⟨((c3_metadata_once mvTask [allOkEnv]).2 (by decide)).1,
   ((c3_metadata_once mvTask [allOkEnv]).2 (by decide)).2.2.1⟩

theorem move_done_reconfig (p : TaskParams) (e : Env) (st : CpTask)
    (h : st.curstep = Step.done) :
    (exec_move_part p e st).1.curstep = Step.done ∧
    ∀ x ∈ (exec_move_part p e st).2, Ev.isReconfig x = true := by
  have hcp := exec_cp_done p e.cp st h
  have hc1 : ({ st with waketm := WakeTm.invalid } : CpTask).curstep = Step.done := h
  by_cases hpn : (p.nextNode.isSome || p.prevNode.isSome) = true
  · rcases hrb : mp_rebuild_lr p e.mpRb { st with waketm := WakeTm.invalid }
      with ⟨okb, sb, evb⟩
    have G := mp_rebuild_good p e.mpRb { st with waketm := WakeTm.invalid }
    rw [hrb] at G
    have Grc : ∀ x ∈ evb, Ev.isReconfig x = true := G.1.2.2.2.2
    cases okb
    · have Gf : sb = configure_retry .cmdRetryNaptime { st with waketm := WakeTm.invalid } :=
        G.1.2.1 rfl
      have hr : exec_move_part p e st = (sb, evb) := by
        simp [exec_move_part, hcp, hc1, hpn, hrb]
      rw [hr]
      exact ⟨by simp [Gf, h], Grc⟩
    · have Gt : sb = { st with waketm := WakeTm.invalid } := G.1.1 rfl
      have hr : exec_move_part p e st =
          ({ sb with res := TaskRes.success, execRes := ExecRes.taskDone },
           evb ++ [Ev.meta (mp_update_metadata_stmts p)]) := by
        simp [exec_move_part, hcp, hc1, hpn, hrb]
      rw [hr]
      refine ⟨by simp [Gt, h], fun x hx => ?_⟩
      rcases List.mem_append.mp hx with h2 | h2
      · exact Grc x h2
      · simp at h2
        subst h2
        rfl
  · have hr : exec_move_part p e st =
        ({ { st with waketm := WakeTm.invalid } with
             res := TaskRes.success, execRes := ExecRes.taskDone },
         [Ev.meta (mp_update_metadata_stmts p)]) := by
      simp only [exec_move_part, hcp]
      rw [if_neg (by simp [h]), if_neg (by simp_all)]
      simp
    rw [hr]
    refine ⟨by simp [h], fun x hx => ?_⟩
    simp at hx
    subst hx
    rfl

theorem cr_done_reconfig (p : TaskParams) (e : Env) (st : CpTask)
    (h : st.curstep = Step.done) :
    (exec_create_replica p e st).1.curstep = Step.done ∧
    ∀ x ∈ (exec_create_replica p e st).2, Ev.isReconfig x = true := by
  have hcp := exec_cp_done p e.cp st h
  have hc1 : ({ st with waketm := WakeTm.invalid } : CpTask).curstep = Step.done := h
  rcases hrb : cr_rebuild_lr p e.crRb { st with waketm := WakeTm.invalid }
    with ⟨okb, sb, evb⟩
  have G := cr_rebuild_goodW p e.crRb { st with waketm := WakeTm.invalid }
  rw [hrb] at G
  have Grc : ∀ x ∈ evb, Ev.isReconfig x = true := G.2.2.2.2
  cases okb
  · have Gf : sb = configure_retry .cmdRetryNaptime { st with waketm := WakeTm.invalid } :=
      G.2.1 rfl
    have hr : exec_create_replica p e st = (sb, evb) := by
      simp [exec_create_replica, hcp, hc1, hrb]
    rw [hr]
    exact ⟨by simp [Gf, h], Grc⟩
  · have Gt : sb = { st with waketm := WakeTm.invalid } := G.1 rfl
    have hr : exec_create_replica p e st =
        ({ sb with res := TaskRes.success, execRes := ExecRes.taskDone },
         evb ++ [Ev.meta (cr_update_metadata_stmts p)]) := by
      simp [exec_create_replica, hcp, hc1, hrb]
    rw [hr]
    refine ⟨by simp [Gt, h], fun x hx => ?_⟩
    rcases List.mem_append.mp hx with h2 | h2
    · exact Grc x h2
    · simp at h2
      subst h2
      rfl

/-- C5: once a task's curstep has reached Done, exec_cp performs no remote
action and leaves the copy machine state unchanged (only the waketm scratch
field is reset to the invalid marker, which exec_cp does unconditionally at
entry); the full task iteration keeps curstep at Done and every event it
produces belongs to the reconfiguration phase, so a reconfiguration retry
re-enters from the reconfiguration phase only and never re-runs tablesync,
finalsync or finalize. -/
theorem c5_done_reconfig_only (p : TaskParams) (e : Env) (st : CpTask)
    (h : st.curstep = Step.done) :
    exec_cp p e.cp st = ({ st with waketm := WakeTm.invalid }, []) ∧
    (exec_task p e st).1.curstep = Step.done ∧
    ∀ x ∈ (exec_task p e st).2, Ev.isReconfig x = true := by
  refine ⟨exec_cp_done p e.cp st h, ?_⟩
  rcases hk : p.kind with _ | _ | _ <;> simp only [exec_task, hk]
  · exact move_done_reconfig p e st h
  · exact move_done_reconfig p e st h
  · exact cr_done_reconfig p e st h

/-- Witness for C5 at a concrete input: a move task already at Done keeps
curstep Done and emits only reconfiguration events. -/
theorem c5_done_reconfig_only_witness :
    exec_cp mvTask allOkEnv.cp doneTask = ({ doneTask with waketm := WakeTm.invalid }, []) ∧
    (exec_task mvTask allOkEnv doneTask).1.curstep = Step.done ∧
    ∀ x ∈ (exec_task mvTask allOkEnv doneTask).2, Ev.isReconfig x = true :=
  c5_done_reconfig_only mvTask allOkEnv doneTask rfl

/-- C6: within a single invocation of the move-task reconfiguration, the
scripts attempted are exactly the early-exit walk of the guarded ordered
list previous, destination, sync-standby-on-previous, next,
sync-standby-on-destination (each element present under its guard): every
sub-step before the first failure runs its script in that order, the first
failing sub-step runs its script exactly when its connection was
established, and no later sub-step runs at all; the invocation succeeds
precisely when every guarded sub-step fully succeeds; consequently the
attempted sequence is always an initial segment of the guarded list, and
on success it is exactly the guarded list. -/
theorem c6_rebuild_order (p : TaskParams) (e : RebuildEnv) (st : CpTask) :
    scriptTags (mp_rebuild_lr p e st).2.2 = mpAttempt e (mpGuardedTags p) ∧
    ((mp_rebuild_lr p e st).1 = true ↔
      (mpGuardedTags p).all (mpSucceeds e) = true) ∧
    frontOf (scriptTags (mp_rebuild_lr p e st).2.2) (mpGuardedTags p) ∧
    ((mp_rebuild_lr p e st).1 = true →
      scriptTags (mp_rebuild_lr p e st).2.2 = mpGuardedTags p) := by
  have T := mp_rebuild_tags p e st
  have C := mp_rebuild_attempt p e st
  exact ⟨C.1, C.2, T.1, T.2⟩

/-- Witness for C6 at concrete inputs: with every sub-step succeeding, a
move-replica task with both neighbors and sync replicas on attempts all
five scripts in order; with the destination sub-step failing, the
attempted sequence stops at the destination script and the three later
guarded sub-steps never run. -/
theorem c6_rebuild_order_witness :
    scriptTags (mp_rebuild_lr mvTaskFull allOkEnv.mpRb freshCpTask).2.2 =
      mpGuardedTags mvTaskFull ∧
    scriptTags (mp_rebuild_lr mvTaskFull failDstEnv freshCpTask).2.2 =
      [ScriptTag.prevSql, ScriptTag.dstSql] :=
  ⟨(c6_rebuild_order mvTaskFull allOkEnv.mpRb freshCpTask).2.2.2 (by decide),
   by
     rw [(c6_rebuild_order mvTaskFull failDstEnv freshCpTask).1]
     decide⟩

/-- C7: a task whose destination already holds the partition according to
the catalog is born with result Failed, is never placed on the scheduler's
timeout list, and no scheduler run ever executes it, so no remote session
is opened and no event is produced for it. -/
theorem c7_dst_exists_born_failed (catalog : List PartRow) (p : TaskParams)
    (es : List Env) (h : shard_exists catalog p.partName p.dstNode = true) :
    (init_cp_state catalog p).res = TaskRes.failed ∧
    (initLife (init_cp_state catalog p)).active = false ∧
    runLife p es (initLife (init_cp_state catalog p)) =
      (initLife (init_cp_state catalog p), []) := by
  have h1 : (init_cp_state catalog p).res = TaskRes.failed := by
    simp [init_cp_state, h]
  have h2 : (initLife (init_cp_state catalog p)).active = false := by
    simp [initLife, h1]
  exact ⟨h1, h2, runLife_inactive p es _ h2⟩

/-- Witness for C7 at a concrete input: with a catalog row recording
partition p on node 2, the move task from 1 to 2 is born Failed and a
scheduler run leaves it untouched. -/
theorem c7_dst_exists_born_failed_witness :
    (init_cp_state [⟨"p", 2, none, none, "r"⟩] mvTask).res = TaskRes.failed ∧
    (initLife (init_cp_state [⟨"p", 2, none, none, "r"⟩] mvTask)).active = false ∧
    runLife mvTask [allOkEnv] (initLife (init_cp_state [⟨"p", 2, none, none, "r"⟩] mvTask)) =
      (initLife (init_cp_state [⟨"p", 2, none, none, "r"⟩] mvTask), []) :=
  c7_dst_exists_born_failed [⟨"p", 2, none, none, "r"⟩] mvTask [allOkEnv] (by decide)

theorem stmtOne_mem_stmtsExecuted {s : Stmt} {tr : List Ev}
    (h : Ev.stmtOne s ∈ tr) : s ∈ stmtsExecuted tr := by
  induction tr with
  | nil => cases h
  | cons e rest ih =>
    rcases List.mem_cons.mp h with he | he
    · subst he
      simp
    · cases e <;> simp [ih he]

theorem hasReadonlyOff_cons_false {s : Stmt} {l : List Stmt}
    (h : hasReadonlyOff (s :: l) = false) : hasReadonlyOff l = false := by
  simp only [hasReadonlyOff, List.any_cons, Bool.or_eq_false_iff] at h
  simp only [hasReadonlyOff]
  exact h.2

theorem readonlyFold_stays_true (l : List Stmt)
    (hoff : hasReadonlyOff l = false) :
    l.foldl (fun b s => match s with
      | .readonlyTableOn _ => true
      | .readonlyTableOff _ => false
      | _ => b) true = true := by
  induction l with
  | nil => rfl
  | cons s rest ih =>
    have h2 := hasReadonlyOff_cons_false hoff
    cases s <;> simp_all [hasReadonlyOff]

theorem readonlyFold_true (l : List Stmt) (b : Bool)
    (hoff : hasReadonlyOff l = false)
    (hon : ∃ t, Stmt.readonlyTableOn t ∈ l) :
    l.foldl (fun b s => match s with
      | .readonlyTableOn _ => true
      | .readonlyTableOff _ => false
      | _ => b) b = true := by
  induction l generalizing b with
  | nil =>
    rcases hon with ⟨t, ht⟩
    cases ht
  | cons s rest ih =>
    have hoff2 := hasReadonlyOff_cons_false hoff
    rcases hon with ⟨t, ht⟩
    rcases List.mem_cons.mp ht with he | he
    · subst he
      simpa using readonlyFold_stays_true rest hoff2
    · cases s
      case readonlyTableOff u =>
        simp [hasReadonlyOff] at hoff
      all_goals
        simp only [List.foldl_cons]
      all_goals
        exact ih _ hoff2 ⟨t, he⟩

theorem readonlyState_true {l : List Stmt}
    (hoff : hasReadonlyOff l = false)
    (hon : ∃ t, Stmt.readonlyTableOn t ∈ l) : readonlyState l = true :=
  readonlyFold_true l false hoff hon

/-- C9: for a create-replica task with sync replicas off, the
readonly_table_off statement (which is bundled into the sync-standby script
and only into it) is never executed over the whole task lifetime, so a
create-replica task that completes successfully leaves the source partition
in the read-only state set during StartFinalsync. -/
theorem c9_sync_off_stays_readonly (p : TaskParams) (es : List Env)
    (_hk : p.kind = TaskKind.createReplica) (hs : p.syncReplicas = false) :
    hasReadonlyOff (stmtsExecuted (runLife p es (initLife freshCpTask)).2) = false ∧
    ((runLife p es (initLife freshCpTask)).1.st.res = TaskRes.success →
      readonlyState (stmtsExecuted (runLife p es (initLife freshCpTask)).2) = true) := by
  have R := runLife_props p es (initLife freshCpTask)
  refine ⟨R.2.2.2.2.1 hs, fun hsucc => ?_⟩
  have hm : ¬ metaCount (runLife p es (initLife freshCpTask)).2 = 0 := by
    intro h0
    have h2 := R.2.2.2.1 h0
    rw [hsucc] at h2
    simp [initLife, freshCpTask] at h2
  have h1 : 1 ≤ metaCount (runLife p es (initLife freshCpTask)).2 :=
    Nat.one_le_iff_ne_zero.mpr hm
  have hdone : (runLife p es (initLife freshCpTask)).1.st.curstep = Step.done :=
    (R.2.2.1 h1).2.2.1
  have hup := R.1
  rw [hdone] at hup
  have hsv : stepValues (runLife p es (initLife freshCpTask)).2 =
      [Step.startFinalsync, Step.finalize, Step.done] := by
    have := hup.symm
    simpa [upTo, initLife, freshCpTask] using this
  have hfin : Ev.stepSet Step.finalize ∈ (runLife p es (initLife freshCpTask)).2 :=
    mem_stepValues.mp (by rw [hsv]; simp)
  have hon := R.2.2.2.2.2 hfin
  exact readonlyState_true (R.2.2.2.2.1 hs)
    ⟨p.partName, stmtOne_mem_stmtsExecuted hon⟩

/-- Witness for C9 at a concrete input: the create-replica task with sync
replicas off completes successfully in one iteration and the source
partition ends read-only. -/
theorem c9_sync_off_stays_readonly_witness :
    readonlyState (stmtsExecuted (runLife crTask [allOkEnv] (initLife freshCpTask)).2) = true :=
  (c9_sync_off_stays_readonly crTask [allOkEnv] rfl rfl).2 (by decide)

/-- Counterexample for C2 as stated: at the concrete task in step
StartFinalsync whose substate query on the destination returns zero rows,
the task is rescheduled after cmd_retry_naptime, not after the configured
poll_interval; the claimed poll_interval wake time is refuted (the step
indeed does not advance). -/
theorem c2_counterexample :
    (exec_task mvTask zeroRowsEnv fsTask).1.curstep = Step.startFinalsync ∧
    (exec_task mvTask zeroRowsEnv fsTask).1.execRes = ExecRes.wakeMeUp ∧
    (exec_task mvTask zeroRowsEnv fsTask).1.waketm =
      WakeTm.afterDelay Delay.cmdRetryNaptime ∧
    (exec_task mvTask zeroRowsEnv fsTask).1.waketm ≠
      WakeTm.afterDelay Delay.pollInterval := by
  decide

/-- C2 (amended): for every task in step StartFinalsync, if the substate
query on the destination returns zero rows (subscription not yet visible),
the task does not advance its step and is rescheduled to retry after
cmd_retry_naptime (the zero-row branch of cp_start_finalsync uses the
command-retry nap, not poll_interval, which is reserved for a visible but
not-yet-ready substate). -/
theorem c2_zero_rows_retry (p : TaskParams) (e : Env) (st : CpTask)
    (h : st.curstep = Step.startFinalsync)
    (hens : e.cp.fs.ensureOk = true) (hsub : e.cp.fs.substate = some []) :
    (exec_task p e st).1.curstep = Step.startFinalsync ∧
    (exec_task p e st).1.execRes = ExecRes.wakeMeUp ∧
    (exec_task p e st).1.waketm = WakeTm.afterDelay Delay.cmdRetryNaptime := by
  have hfs : cp_start_finalsync p e.cp.fs { st with waketm := WakeTm.invalid } =
      (false, configure_retry .cmdRetryNaptime { st with waketm := WakeTm.invalid },
       [Ev.qry (Query.substate (logname p))]) := by
    simp [cp_start_finalsync, seqR, ensurePq, hens, hsub]
  rw [h] at hfs
  have hcp : exec_cp p e.cp st =
      (configure_retry .cmdRetryNaptime
        { st with curstep := Step.startFinalsync, waketm := WakeTm.invalid },
       [Ev.qry (Query.substate (logname p))]) := by
    simp [exec_cp, phaseRun, h, hfs]
  rcases hk : p.kind with _ | _ | _ <;>
    simp [exec_task, hk, exec_move_part, exec_create_replica, hcp]

/-- Witness for C2 at a concrete input. -/
theorem c2_zero_rows_retry_witness :
    (exec_task mvTask zeroRowsEnv fsTask).1.curstep = Step.startFinalsync ∧
    (exec_task mvTask zeroRowsEnv fsTask).1.execRes = ExecRes.wakeMeUp ∧
    (exec_task mvTask zeroRowsEnv fsTask).1.waketm =
      WakeTm.afterDelay Delay.cmdRetryNaptime :=
  c2_zero_rows_retry mvTask zeroRowsEnv fsTask rfl rfl rfl


theorem phaseRun_false (c : Step) (f : CpTask → Bool × CpTask × List Ev)
    (s : CpTask) (ev : List Ev) : phaseRun c f (false, s, ev) = (false, s, ev) := rfl

theorem phaseRun_pre (c : Step) (f : CpTask → Bool × CpTask × List Ev)
    (s : CpTask) (ev0 : List Ev) :
    phaseRun c f (true, s, ev0) =
      ((phaseRun c f (true, s, [])).1, (phaseRun c f (true, s, [])).2.1,
       ev0 ++ (phaseRun c f (true, s, [])).2.2) := by
  by_cases hc : s.curstep = c
  · rcases hf : f s with ⟨ok, s2, e2⟩
    simp [phaseRun, hc, hf]
  · simp [phaseRun, hc]

theorem phaseRun_hit (c : Step) (f : CpTask → Bool × CpTask × List Ev)
    (s : CpTask) (ev : List Ev) (hc : s.curstep = c) :
    phaseRun c f (true, s, ev) = ((f s).1, (f s).2.1, ev ++ (f s).2.2) := by
  rcases hf : f s with ⟨ok, s2, e2⟩
  simp [phaseRun, hc, hf]

theorem phaseRun_miss (c : Step) (f : CpTask → Bool × CpTask × List Ev)
    (s : CpTask) (ev : List Ev) (hc : ¬ s.curstep = c) :
    phaseRun c f (true, s, ev) = (true, s, ev) := by
  simp [phaseRun, hc]

/-- Counterexample for C1 as stated: at the concrete fresh move task under
an all-successful environment, a single invocation of exec_cp does not stop
after advancing to StartFinalsync; it runs Steps B and C in the same
invocation and ends at Done, assigning three steps, so exec_cp advances the
state machine by more than one step and Step B does not wait for a later
scheduler iteration. -/
theorem c1_counterexample :
    (exec_cp mvTask allOkEnv.cp freshCpTask).1.curstep = Step.done ∧
    stepValues (exec_cp mvTask allOkEnv.cp freshCpTask).2 =
      [Step.startFinalsync, Step.finalize, Step.done] ∧
    Step.done ≠ Step.startFinalsync := by
  decide

/-- C1 (amended): when a task in step StartTablesync succeeds at Step A,
exec_cp advances to StartFinalsync and falls through into Step B within the
same invocation: the invocation equals Step A's events followed by an
invocation entered at StartFinalsync, so Step B (and possibly Step C) run
now rather than in a later scheduler iteration, and a single invocation can
advance the machine by up to three steps; control returns to the scheduler
immediately only when a step fails. -/
theorem c1_step_a_falls_through (p : TaskParams) (e : CpEnv) (st : CpTask)
    (h : st.curstep = Step.startTablesync)
    (hok : (cp_start_tablesync p e.ts { st with waketm := WakeTm.invalid }).1 = true) :
    exec_cp p e st =
      ((exec_cp p e { st with curstep := Step.startFinalsync }).1,
       (cp_start_tablesync p e.ts { st with waketm := WakeTm.invalid }).2.2 ++
         (exec_cp p e { st with curstep := Step.startFinalsync }).2) := by
  rcases h1 : cp_start_tablesync p e.ts { st with waketm := WakeTm.invalid }
    with ⟨ok1, s1, ev1⟩
  rw [h1] at hok
  have hok1 : ok1 = true := hok
  subst hok1
  have T := ts_spec p e.ts { st with waketm := WakeTm.invalid }
  rw [h1] at T
  have hs1 : s1 = { st with curstep := Step.startFinalsync, waketm := WakeTm.invalid } :=
    (T.1 rfl).1
  have hs1c : s1.curstep = Step.startFinalsync := by rw [hs1]
  have hA : phaseRun Step.startTablesync (cp_start_tablesync p e.ts)
      (true, { st with waketm := WakeTm.invalid }, ([] : List Ev)) = (true, s1, ev1) := by
    rw [phaseRun_hit Step.startTablesync (cp_start_tablesync p e.ts)
      { st with waketm := WakeTm.invalid } []
      (show ({ st with waketm := WakeTm.invalid } : CpTask).curstep
        = Step.startTablesync from h), h1]
    simp
  rcases hB : phaseRun Step.startFinalsync (cp_start_finalsync p e.fs)
      (true, s1, ([] : List Ev)) with ⟨okb, sb, evb⟩
  have hB1 : phaseRun Step.startFinalsync (cp_start_finalsync p e.fs) (true, s1, ev1)
      = (okb, sb, ev1 ++ evb) := by
    rw [phaseRun_pre, hB]
  have key : (phaseRun Step.finalize (cp_finalize p e.fz) (okb, sb, ev1 ++ evb)).2
      = ((phaseRun Step.finalize (cp_finalize p e.fz) (okb, sb, evb)).2.1,
         ev1 ++ (phaseRun Step.finalize (cp_finalize p e.fz) (okb, sb, evb)).2.2) := by
    cases okb
    · rfl
    · rw [phaseRun_pre Step.finalize (cp_finalize p e.fz) sb (ev1 ++ evb),
        phaseRun_pre Step.finalize (cp_finalize p e.fz) sb evb]
      simp
  have hL : exec_cp p e st =
      ((phaseRun Step.finalize (cp_finalize p e.fz)
         (phaseRun Step.startFinalsync (cp_start_finalsync p e.fs) (true, s1, ev1))).2.1,
       (phaseRun Step.finalize (cp_finalize p e.fz)
         (phaseRun Step.startFinalsync (cp_start_finalsync p e.fs) (true, s1, ev1))).2.2) := by
    simp only [exec_cp]
    rw [hA]
  have hstate : ({ { st with curstep := Step.startFinalsync } with
      waketm := WakeTm.invalid } : CpTask) = s1 := by
    rw [hs1]
  have hR : exec_cp p e { st with curstep := Step.startFinalsync } =
      ((phaseRun Step.finalize (cp_finalize p e.fz)
         (phaseRun Step.startFinalsync (cp_start_finalsync p e.fs)
           (true, s1, ([] : List Ev)))).2.1,
       (phaseRun Step.finalize (cp_finalize p e.fz)
         (phaseRun Step.startFinalsync (cp_start_finalsync p e.fs)
           (true, s1, ([] : List Ev)))).2.2) := by
    simp only [exec_cp]
    rw [hstate, phaseRun_miss Step.startTablesync (cp_start_tablesync p e.ts) s1 []
      (by simp [hs1c])]
  rw [hL, hR, hB1, hB, key]

/-- Witness for C1 at a concrete input. -/
theorem c1_step_a_falls_through_witness :
    exec_cp mvTask allOkEnv.cp freshCpTask =
      ((exec_cp mvTask allOkEnv.cp { freshCpTask with curstep := Step.startFinalsync }).1,
       (cp_start_tablesync mvTask allOkEnv.cp.ts
         { freshCpTask with waketm := WakeTm.invalid }).2.2 ++
         (exec_cp mvTask allOkEnv.cp { freshCpTask with curstep := Step.startFinalsync }).2) :=
  c1_step_a_falls_through mvTask allOkEnv.cp freshCpTask rfl (by decide)

/-! Development for C8: injectivity of the copy channel name. -/

theorem digitVal_digitChar : ∀ k, k < 10 → digitVal (Nat.digitChar k) = k := by
  decide

theorem digitChar_ne_underscore : ∀ k, k < 10 → Nat.digitChar k ≠ '_' := by
  decide

theorem natChars_no_underscore (n : Nat) : '_' ∉ natChars n := by
  induction n using Nat.strong_induction_on with
  | _ n ih =>
    rw [natChars]
    split
    · rename_i h
      simp only [List.mem_singleton]
      intro he
      exact digitChar_ne_underscore n h he.symm
    · rename_i h
      have hlt : n / 10 < n := Nat.div_lt_self (by omega) (by omega)
      intro hmem
      rcases List.mem_append.mp hmem with h2 | h2
      · exact ih _ hlt h2
      · simp only [List.mem_singleton] at h2
        exact digitChar_ne_underscore _ (Nat.mod_lt _ (by omega)) h2.symm

theorem valOfDigits_append_digit (l : List Char) (c : Char) :
    valOfDigits (l ++ [c]) = 10 * valOfDigits l + digitVal c := by
  simp [valOfDigits, List.foldl_append]

theorem valOfDigits_natChars (n : Nat) : valOfDigits (natChars n) = n := by
  induction n using Nat.strong_induction_on with
  | _ n ih =>
    rw [natChars]
    split
    · rename_i h
      simp [valOfDigits, digitVal_digitChar n h]
    · rename_i h
      have hlt : n / 10 < n := Nat.div_lt_self (by omega) (by omega)
      rw [valOfDigits_append_digit, ih _ hlt,
        digitVal_digitChar _ (Nat.mod_lt _ (by omega))]
      omega

theorem natChars_inj {m n : Nat} (h : natChars m = natChars n) : m = n := by
  have h2 := valOfDigits_natChars m
  rw [h, valOfDigits_natChars] at h2
  exact h2.symm

theorem sep_cancel_left {sep : Char} :
    ∀ {a1 : List Char} {b1 a2 b2 : List Char},
      a1 ++ sep :: b1 = a2 ++ sep :: b2 → sep ∉ a1 → sep ∉ a2 →
      a1 = a2 ∧ b1 = b2 := by
  intro a1
  induction a1 with
  | nil =>
    intro b1 a2 b2 h h1 h2
    cases a2 with
    | nil => simpa using h
    | cons c t =>
      simp only [List.nil_append, List.cons_append, List.cons.injEq] at h
      exact absurd (h.1 ▸ List.mem_cons_self c t) h2
  | cons c t ih =>
    intro b1 a2 b2 h h1 h2
    cases a2 with
    | nil =>
      simp only [List.nil_append, List.cons_append, List.cons.injEq] at h
      exact absurd (h.1.symm ▸ List.mem_cons_self c t) h1
    | cons d u =>
      simp only [List.cons_append, List.cons.injEq] at h
      have h1' : sep ∉ t := fun hm => h1 (List.mem_cons_of_mem c hm)
      have h2' : sep ∉ u := fun hm => h2 (List.mem_cons_of_mem d hm)
      obtain ⟨htu, hb⟩ := ih h.2 h1' h2'
      exact ⟨by rw [h.1, htu], hb⟩

theorem sep_cancel_right {sep : Char} {l1 r1 l2 r2 : List Char}
    (h : l1 ++ sep :: r1 = l2 ++ sep :: r2) (h1 : sep ∉ r1) (h2 : sep ∉ r2) :
    l1 = l2 ∧ r1 = r2 := by
  have hrev : r1.reverse ++ sep :: l1.reverse = r2.reverse ++ sep :: l2.reverse := by
    have h3 := congrArg List.reverse h
    simpa [List.reverse_append] using h3
  have hc := sep_cancel_left hrev (by simpa using h1) (by simpa using h2)
  constructor
  · have := congrArg List.reverse hc.2
    simpa using this
  · have := congrArg List.reverse hc.1
    simpa using this

theorem string_data_append (a b : String) : (a ++ b).data = a.data ++ b.data := rfl

theorem natStr_data (n : Nat) : (natStr n).data = natChars n := rfl

theorem underscore_data : ("_" : String).data = ['_'] := rfl

/-- C8: the copy channel names shardman_copy_(part)_(src)_(dst) are
injective over the triple (part, src, dst): since the decimal renderings
of the node ids contain no underscore, the name determines dst, then src,
then the partition name, even though partition names may themselves contain
digits and underscores. -/
theorem c8_copy_lname_injective (p1 p2 : String) (s1 d1 s2 d2 : Nat)
    (h : copy_lname p1 s1 d1 = copy_lname p2 s2 d2) :
    p1 = p2 ∧ s1 = s2 ∧ d1 = d2 := by
  have hd := congrArg String.data h
  simp only [copy_lname, string_data_append, natStr_data, underscore_data,
    List.append_assoc, List.singleton_append] at hd
  have hd1 : p1.data ++ '_' :: (natChars s1 ++ '_' :: natChars d1) =
      p2.data ++ '_' :: (natChars s2 ++ '_' :: natChars d2) :=
    List.append_cancel_left hd
  have hd2 : (p1.data ++ '_' :: natChars s1) ++ '_' :: natChars d1 =
      (p2.data ++ '_' :: natChars s2) ++ '_' :: natChars d2 := by
    simpa [List.append_assoc] using hd1
  have hc1 := sep_cancel_right hd2 (natChars_no_underscore d1) (natChars_no_underscore d2)
  have hc2 := sep_cancel_right hc1.1 (natChars_no_underscore s1) (natChars_no_underscore s2)
  refine ⟨?_, natChars_inj hc2.2, natChars_inj hc1.2⟩
  obtain ⟨pd1⟩ := p1
  obtain ⟨pd2⟩ := p2
  have : pd1 = pd2 := by simpa using hc2.1
  rw [this]

/-- Witness for C8 at a concrete input. -/
theorem c8_copy_lname_injective_witness :
    ("p_1" : String) = "p_1" ∧ (2 : Nat) = 2 ∧ (3 : Nat) = 3 :=
  c8_copy_lname_injective "p_1" "p_1" 2 3 2 3 rfl

/-! Development for C10: the remote_exec fragment loop. -/

theorem splitAtSemi_none {l : List Char} (h : splitAtSemi l = none) : ';' ∉ l := by
  induction l with
  | nil => simp
  | cons c rest ih =>
    simp only [splitAtSemi] at h
    by_cases hc : c = ';'
    · rw [if_pos hc] at h
      cases h
    · rw [if_neg hc] at h
      intro hm
      rcases List.mem_cons.mp hm with he | he
      · exact hc he.symm
      · cases hsp : splitAtSemi rest with
        | none => exact ih hsp he
        | some r =>
          rw [hsp] at h
          cases h

theorem splitAtSemi_some {l : List Char} :
    ∀ {a b : List Char}, splitAtSemi l = some (a, b) → l = a ++ ';' :: b ∧ ';' ∉ a := by
  induction l with
  | nil => intro a b h; cases h
  | cons c rest ih =>
    intro a b h
    simp only [splitAtSemi] at h
    by_cases hc : c = ';'
    · rw [if_pos hc] at h
      simp only [Option.some.injEq, Prod.mk.injEq] at h
      obtain ⟨ha, hb⟩ := h
      subst ha
      subst hb
      simp [hc]
    · rw [if_neg hc] at h
      cases hsp : splitAtSemi rest with
      | none =>
        rw [hsp] at h
        cases h
      | some r =>
        rw [hsp] at h
        simp only [Option.some.injEq, Prod.mk.injEq] at h
        obtain ⟨ha, hb⟩ := h
        obtain ⟨hrest, hnmem⟩ := ih hsp
        subst ha
        subst hb
        constructor
        · simp [hrest]
        · intro hm
          rcases List.mem_cons.mp hm with he | he
          · exact hc he.symm
          · exact hnmem he
  -- the recursion of splitAtSemi pairs the projections of r
  
theorem splitSemiAll_no_semi {l : List Char} (h : ';' ∉ l) :
    splitSemiAll l = ([], l) := by
  induction l with
  | nil => rfl
  | cons c rest ih =>
    have hc : ¬ c = ';' := fun he => h (by simp [he])
    have hr : ';' ∉ rest := fun hm => h (List.mem_cons_of_mem c hm)
    simp only [splitSemiAll, ih hr, if_neg hc]

theorem completeFrags_split_none {l : List Char} (h : splitAtSemi l = none) :
    completeFrags l = [] := by
  simp [completeFrags, splitSemiAll_no_semi (splitAtSemi_none h)]

theorem completeFrags_split_some {l : List Char} :
    ∀ {a b : List Char}, splitAtSemi l = some (a, b) →
      completeFrags l = a :: completeFrags b := by
  induction l with
  | nil => intro a b h; cases h
  | cons c rest ih =>
    intro a b h
    simp only [splitAtSemi] at h
    by_cases hc : c = ';'
    · rw [if_pos hc] at h
      simp only [Option.some.injEq, Prod.mk.injEq] at h
      obtain ⟨ha, hb⟩ := h
      subst ha
      subst hb
      simp [completeFrags, splitSemiAll, hc]
    · rw [if_neg hc] at h
      cases hsp : splitAtSemi rest with
      | none =>
        rw [hsp] at h
        cases h
      | some r =>
        rw [hsp] at h
        simp only [Option.some.injEq, Prod.mk.injEq] at h
        obtain ⟨ha, hb⟩ := h
        have hr : completeFrags rest = r.1 :: completeFrags r.2 := ih hsp
        subst ha
        subst hb
        simp only [completeFrags, splitSemiAll, if_neg hc] at hr ⊢
        rw [hr]

theorem remoteExecF_restores (o : Nat → Bool) :
    ∀ (fuel i : Nat) (buf : List Char), (remoteExecF o i fuel buf).2.1 = buf := by
  intro fuel
  induction fuel with
  | zero => intro i buf; rfl
  | succ fuel ih =>
    intro i buf
    simp only [remoteExecF]
    cases hsp : splitAtSemi buf with
    | none => rfl
    | some fr =>
      have hbuf := (splitAtSemi_some hsp).1
      by_cases ho : o i
      · simp only [if_pos ho, ih (i + 1) fr.2]
        exact hbuf.symm
      · simp only [if_neg ho]
        exact hbuf.symm

theorem frontOf_cons {α : Type} {l L : List α} (x : α) (h : frontOf l L) :
    frontOf (x :: l) (x :: L) := by
  obtain ⟨t, ht⟩ := h
  exact ⟨t, by simp [ht]⟩

theorem remoteExecF_front (o : Nat → Bool) :
    ∀ (fuel i : Nat) (buf : List Char),
      frontOf (remoteExecF o i fuel buf).1 (completeFrags buf) := by
  intro fuel
  induction fuel with
  | zero => intro i buf; exact frontOf_nil _
  | succ fuel ih =>
    intro i buf
    simp only [remoteExecF]
    cases hsp : splitAtSemi buf with
    | none => exact frontOf_nil _
    | some fr =>
      rw [completeFrags_split_some hsp]
      by_cases ho : o i
      · simp only [if_pos ho]
        exact frontOf_cons fr.1 (ih (i + 1) fr.2)
      · simp only [if_neg ho]
        exact ⟨completeFrags fr.2, rfl⟩

theorem remoteExecF_ok_full (o : Nat → Bool) :
    ∀ (fuel i : Nat) (buf : List Char), buf.length ≤ fuel →
      (remoteExecF o i fuel buf).2.2 = true →
      (remoteExecF o i fuel buf).1 = completeFrags buf := by
  intro fuel
  induction fuel with
  | zero =>
    intro i buf hlen _
    have : buf = [] := List.length_eq_zero.mp (Nat.le_zero.mp hlen)
    subst this
    rfl
  | succ fuel ih =>
    intro i buf hlen hok
    simp only [remoteExecF] at hok ⊢
    cases hsp : splitAtSemi buf with
    | none => exact (completeFrags_split_none hsp).symm
    | some fr =>
      rw [completeFrags_split_some hsp]
      have hbuf := (splitAtSemi_some hsp).1
      have hlen2 : fr.2.length ≤ fuel := by
        have : buf.length = fr.1.length + 1 + fr.2.length := by
          rw [hbuf]
          simp
          omega
        omega
      by_cases ho : o i
      · rw [hsp] at hok
        simp only [if_pos ho] at hok ⊢
        rw [ih (i + 1) fr.2 hlen2 hok]
      · rw [hsp] at hok
        simp only [if_neg ho] at hok
        cases hok

/-- C10: for every script buffer passed to remote_exec, exactly the
semicolon-terminated fragments are candidates for execution, in order: the
fragments sent are always an initial segment of the complete fragment list
(so the trailing characters after the last semicolon are never sent), and
when every fragment succeeds the sent list is exactly the complete fragment
list; moreover, on return, whether all fragments succeeded or one failed,
the buffer contents are byte-for-byte identical to the input (each
iteration's temporary in-place NUL overwrite of a semicolon is undone on
both the success and the failure path). -/
theorem c10_remote_exec_spec (o : Nat → Bool) (buf : List Char) :
    (remote_exec o buf).2.1 = buf ∧
    frontOf (remote_exec o buf).1 (completeFrags buf) ∧
    ((remote_exec o buf).2.2 = true → (remote_exec o buf).1 = completeFrags buf) :=
  ⟨remoteExecF_restores o buf.length 0 buf,
   remoteExecF_front o buf.length 0 buf,
   remoteExecF_ok_full o buf.length 0 buf (Nat.le_refl _)⟩

/-- Witness for C10 at a concrete input: the buffer a;b;x, with all
fragments succeeding, is restored intact, and exactly the two complete
fragments a and b are sent, never the trailer x. -/
theorem c10_remote_exec_spec_witness :
    (remote_exec (fun _ => true) ('a' :: ';' :: 'b' :: ';' :: 'x' :: [])).2.1 =
      'a' :: ';' :: 'b' :: ';' :: 'x' :: [] ∧
    (remote_exec (fun _ => true) ('a' :: ';' :: 'b' :: ';' :: 'x' :: [])).1 =
      completeFrags ('a' :: ';' :: 'b' :: ';' :: 'x' :: []) :=
  ⟨(c10_remote_exec_spec (fun _ => true) ('a' :: ';' :: 'b' :: ';' :: 'x' :: [])).1,
   (c10_remote_exec_spec (fun _ => true) ('a' :: ';' :: 'b' :: ';' :: 'x' :: [])).2.2
     (by decide)⟩
end Shardman
